import Mathlib

/-!
# WellUP: calorie estimator, calendar grid, event collection and forms

A shallow embedding of `estimateCalories`, `saveDailyGoal` and `formatTime`
(src/js/nutrition.js), of `renderCalendar`, `createDayElement`, `saveEvent`,
`deleteEvent`, `editEvent`, the modal functions and `renderEventsList`
(src/js/schedule.js), of `logSleep`, `deleteEntry` and `updateGoal`
(src/js/sleep.js), of `formatTime` (src/js/exercise.js) and of `isValidEmail`
(src/js/app.js), with the properties stated about them.

Conventions of the embedding:
* JavaScript numbers are exact rationals (`JsNumber.num`) or `NaN`; the
  arithmetic of the estimator is carried out exactly.
* Strings are Lean strings; `String.prototype.includes` is substring search
  on the character lists.
* `String.prototype.toLowerCase` is a parameter of the estimator; the
  concrete evaluations use `asciiLower`, which agrees with it on ASCII text.
* The built-in `Date` is modelled on day numbers, following the ECMAScript
  definitions (`DayFromYear`, `MakeDay`, `WeekDay`, `DateFromTime`,
  `TimeClip`), in the local calendar; a `Date` built from a day more than
  100 000 000 days from 1 January 1970 is an Invalid Date, whose `getDay` and
  `getDate` are `NaN`. The limit is applied to the local day number, as it
  falls in a zone without offset; in another zone the last and the first
  valid day move by at most one day, within the same months.
* The module variables `events` and `editingEventId` are an explicit state;
  `Date.now()`, `new Date().toISOString()` and the answer to `confirm` are
  parameters of the functions that read them.
* Date strings are parsed to time values in milliseconds for one fixed offset
  `tz` of local time from UTC, in minutes.
* `Array.prototype.sort` is modelled for comparators that are consistent on
  the array, where its result is determined; the statements about the sorted
  event list are made for events whose dates parse.
* `parseInt` is modelled on strings and gives the exact integer that the
  digits write (the code has the nearest double, which is the same number up
  to 2^53); the number that `parseFloat` makes of a field is an input of the
  functions that call it.
* The pattern of `isValidEmail` is a regular expression over the classes of
  characters it tells apart, matched by derivatives.
-/

namespace WellUP

/-! ## JavaScript values used by the estimator -/

/-- A JavaScript number as the estimator computes with it: an exact rational
or `NaN`. -/
inductive JsNumber where
  | num (q : ℚ)
  | nan
deriving DecidableEq

/-- The errors a call can end in. `typeError` is what reading a property of
`undefined` raises; `invalidArgument` is the error kind of the specification. -/
inductive JsError where
  | typeError
  | invalidArgument
deriving DecidableEq

/-- Addition `a + b` of numbers: `NaN` is absorbing. -/
def JsNumber.add : JsNumber → JsNumber → JsNumber
  | .num a, .num b => .num (a + b)
  | _, _ => .nan

/-- Multiplication `a * b` of numbers: `NaN` is absorbing. -/
def JsNumber.mul : JsNumber → JsNumber → JsNumber
  | .num a, .num b => .num (a * b)
  | _, _ => .nan

/-- Division `a / b` by a non-zero constant: `NaN` is absorbing. -/
def JsNumber.div : JsNumber → JsNumber → JsNumber
  | .num a, .num b => .num (a / b)
  | _, _ => .nan

/-- `Math.round`: the nearest integer, a tie going toward positive infinity,
that is `floor (x + 1/2)`; `Math.round(NaN)` is `NaN`. -/
def mathRound : JsNumber → JsNumber
  | .num q => .num ((⌊q + 1 / 2⌋ : ℤ) : ℚ)
  | .nan => .nan

/-- `s.includes(k)`: `k` occurs in `s` as a contiguous run of characters. -/
def includes (s k : String) : Bool :=
  s.data.tails.any (fun t => k.data.isPrefixOf t)

/-- Lower-casing of the ASCII letters, every other character kept: the
behaviour of `toLowerCase` on ASCII text. -/
def asciiLower (s : String) : String := String.mk (s.data.map Char.toLower)

/-- The white-space characters of ECMAScript (WhiteSpace and LineTerminator),
by code point. -/
def isWhiteSpace (c : Char) : Bool :=
  let n := c.toNat
  n = 0x09 || n = 0x0A || n = 0x0B || n = 0x0C || n = 0x0D || n = 0x20 ||
  n = 0xA0 || n = 0x1680 || (0x2000 ≤ n && n ≤ 0x200A) || n = 0x2028 ||
  n = 0x2029 || n = 0x202F || n = 0x205F || n = 0x3000 || n = 0xFEFF

/-! ## The calorie table (nutrition.js, lines 12-82) -/

/-- One entry of the table: the object literal `{ small: _, medium: _, large: _ }`
as its list of (property name, value) pairs. -/
abbrev PortionValues := List (String × Nat)

/-- The constant `calorieDatabase`, in source order (the order in which
`Object.entries` enumerates it). -/
def calorieDatabase : List (String × PortionValues) :=
  [ ("bread", [("small", 70), ("medium", 140), ("large", 210)]),
    ("toast", [("small", 70), ("medium", 140), ("large", 210)]),
    ("egg", [("small", 70), ("medium", 90), ("large", 120)]),
    ("cereal", [("small", 110), ("medium", 220), ("large", 330)]),
    ("oatmeal", [("small", 150), ("medium", 300), ("large", 450)]),
    ("pancake", [("small", 90), ("medium", 180), ("large", 270)]),
    ("waffle", [("small", 100), ("medium", 200), ("large", 300)]),
    ("yogurt", [("small", 80), ("medium", 150), ("large", 220)]),
    ("nasi lemak", [("small", 400), ("medium", 600), ("large", 800)]),
    ("roti prata", [("small", 150), ("medium", 300), ("large", 450)]),
    ("kaya toast", [("small", 200), ("medium", 300), ("large", 400)]),
    ("dim sum", [("small", 50), ("medium", 100), ("large", 150)]),
    ("congee", [("small", 100), ("medium", 200), ("large", 300)]),
    ("rice", [("small", 150), ("medium", 250), ("large", 350)]),
    ("chicken rice", [("small", 400), ("medium", 600), ("large", 800)]),
    ("fried rice", [("small", 450), ("medium", 650), ("large", 850)]),
    ("biryani", [("small", 400), ("medium", 600), ("large", 800)]),
    ("nasi goreng", [("small", 450), ("medium", 650), ("large", 850)]),
    ("noodles", [("small", 200), ("medium", 350), ("large", 500)]),
    ("pasta", [("small", 200), ("medium", 350), ("large", 500)]),
    ("laksa", [("small", 350), ("medium", 500), ("large", 650)]),
    ("mee goreng", [("small", 400), ("medium", 550), ("large", 700)]),
    ("hokkien mee", [("small", 400), ("medium", 550), ("large", 700)]),
    ("char kway teow", [("small", 450), ("medium", 650), ("large", 850)]),
    ("chicken", [("small", 150), ("medium", 250), ("large", 350)]),
    ("beef", [("small", 200), ("medium", 300), ("large", 400)]),
    ("pork", [("small", 180), ("medium", 280), ("large", 380)]),
    ("fish", [("small", 120), ("medium", 200), ("large", 280)]),
    ("tofu", [("small", 70), ("medium", 140), ("large", 210)]),
    ("burger", [("small", 250), ("medium", 450), ("large", 650)]),
    ("pizza", [("small", 200), ("medium", 300), ("large", 400)]),
    ("fries", [("small", 220), ("medium", 350), ("large", 480)]),
    ("sandwich", [("small", 250), ("medium", 400), ("large", 550)]),
    ("chips", [("small", 150), ("medium", 250), ("large", 350)]),
    ("cookie", [("small", 50), ("medium", 100), ("large", 150)]),
    ("candy", [("small", 50), ("medium", 100), ("large", 150)]),
    ("chocolate", [("small", 100), ("medium", 200), ("large", 300)]),
    ("nuts", [("small", 100), ("medium", 200), ("large", 300)]),
    ("granola", [("small", 100), ("medium", 200), ("large", 300)]),
    ("apple", [("small", 50), ("medium", 95), ("large", 140)]),
    ("banana", [("small", 70), ("medium", 105), ("large", 140)]),
    ("orange", [("small", 45), ("medium", 80), ("large", 115)]),
    ("fruit", [("small", 50), ("medium", 80), ("large", 110)]),
    ("milk", [("small", 60), ("medium", 120), ("large", 180)]),
    ("juice", [("small", 60), ("medium", 120), ("large", 180)]),
    ("soda", [("small", 100), ("medium", 150), ("large", 200)]),
    ("coffee", [("small", 5), ("medium", 10), ("large", 15)]),
    ("tea", [("small", 2), ("medium", 5), ("large", 8)]),
    ("meal", [("small", 300), ("medium", 500), ("large", 700)]),
    ("snack", [("small", 100), ("medium", 150), ("large", 200)]) ]

/-- The three portion sizes of the form's select box. -/
inductive Portion where
  | small
  | medium
  | large
deriving DecidableEq, Repr

/-- The property name a portion size is passed as. -/
def Portion.key : Portion → String
  | .small => "small"
  | .medium => "medium"
  | .large => "large"

/-! ## estimateCalories (nutrition.js, lines 193-227) -/

/-- The read `calories[portion]` used as a number: the stored value, or a
non-number (`undefined`, or a member inherited from `Object.prototype`) for
any other property name, which every later arithmetic step turns into `NaN`. -/
def portionValue (calories : PortionValues) (portion : String) : JsNumber :=
  match calories.lookup portion with
  | some v => .num (v : ℚ)
  | none => .nan

/-- One iteration of the loop over `Object.entries(calorieDatabase)`, on the
pair `(totalCalories, foundMatches)`. -/
def matchStep (lowerText portion : String) (st : JsNumber × Nat)
    (entry : String × PortionValues) : JsNumber × Nat :=
  if includes lowerText entry.1 then
    (st.1.add (portionValue entry.2 portion), st.2 + 1)
  else st

/-- The read `calorieDatabase['meal'][portion]`: a missing `meal` entry would
make it a property read on `undefined`. -/
def mealDefault (portion : String) : Except JsError JsNumber :=
  match calorieDatabase.lookup "meal" with
  | some calories => .ok (portionValue calories portion)
  | none => .error .typeError

/-- The value of `totalCalories` after the loop and the fallback (lines
194-209), on the lower-cased text. -/
def baseCalories (lowerText portion : String) : Except JsError JsNumber :=
  let st := calorieDatabase.foldl (matchStep lowerText portion) (JsNumber.num 0, 0)
  if st.2 = 0 then mealDefault portion else .ok st.1

/-- The value of `totalCalories` when `estimateCalories` reaches its `return`
(lines 194-223). -/
def estimateTotal (toLowerCase : String → String) (foodText portion : String) :
    Except JsError JsNumber :=
  let lowerText := toLowerCase foodText
  match baseCalories lowerText portion with
  | .error e => .error e
  | .ok t0 =>
    let t1 := if includes lowerText "fried" || includes lowerText "deep fried"
      then t0.mul (.num 1.3) else t0
    let t2 := if includes lowerText "grilled" || includes lowerText "steamed"
      then t1.mul (.num 0.9) else t1
    let t3 := if includes lowerText "oil" || includes lowerText "butter"
      then t2.add (.num 100) else t2
    let t4 := if includes lowerText "salad" && includes lowerText "dressing"
      then t3.add (.num 150) else t3
    .ok t4

/-- The function `estimateCalories(foodText, portion)`:
`Math.round(totalCalories / 10) * 10`. -/
def estimateCalories (toLowerCase : String → String) (foodText portion : String) :
    Except JsError JsNumber :=
  match estimateTotal toLowerCase foodText portion with
  | .error e => .error e
  | .ok totalCalories => .ok ((mathRound (totalCalories.div (.num 10))).mul (.num 10))

/-! ## The reference definition of the estimate -/

/-- The table value `table[k][portion]` of an entry for a portion size. -/
def tableValue (calories : PortionValues) (p : Portion) : Nat :=
  (calories.lookup p.key).getD 0

/-- The entries of the table whose keyword is a substring of the text. -/
def matchedEntries (t : String) : List (String × PortionValues) :=
  calorieDatabase.filter (fun entry => includes t entry.1)

/-- The base value: the sum of the table values of the matching keywords, or
the value of `meal` when no keyword matches. -/
def referenceBase (t : String) (p : Portion) : Nat :=
  if matchedEntries t = [] then
    tableValue ((calorieDatabase.lookup "meal").getD []) p
  else
    ((matchedEntries t).map (fun entry => tableValue entry.2 p)).sum

/-- The total before rounding, as the specification words it, on the
lower-cased text `t`. -/
def referenceTotal (t : String) (p : Portion) : ℚ :=
  let base : ℚ := referenceBase t p
  let fried := if includes t "fried" then base * 1.3 else base
  let grilled := if includes t "grilled" || includes t "steamed" then fried * 0.9 else fried
  let oil := if includes t "oil" || includes t "butter" then grilled + 100 else grilled
  if includes t "salad" && includes t "dressing" then oil + 150 else oil

/-- The estimate as the specification words it: the total rounded to the
nearest multiple of 10. -/
def referenceEstimate (t : String) (p : Portion) : ℚ :=
  ((round (referenceTotal t p / 10) : ℤ) : ℚ) * 10

/-- The fallback value `meal[portion]` as the specification lists it. -/
def mealFallback : Portion → ℚ
  | .small => 300
  | .medium => 500
  | .large => 700

/-! ## The built-in Date, on local day numbers

Day 0 is 1 January 1970. The definitions follow the ECMAScript ones
(`DayFromYear`, `DaysInYear`, `YearFromTime`, `MonthFromTime`, `DateFromTime`,
`WeekDay`, `MakeDay`) with a time value replaced by its day number. -/

/-- `DayFromYear(y)`: the day number of 1 January of year `y`. -/
def DayFromYear (y : Int) : Int :=
  365 * (y - 1970) + (y - 1969) / 4 - (y - 1901) / 100 + (y - 1601) / 400

/-- `DaysInYear(y)`. -/
def DaysInYear (y : Int) : Int :=
  if y % 4 ≠ 0 then 365
  else if y % 100 ≠ 0 then 366
  else if y % 400 ≠ 0 then 365
  else 366

/-- The leap-day count of year `y`: 1 in a leap year, 0 otherwise. -/
def leapDay (y : Int) : Int := if DaysInYear y = 366 then 1 else 0

/-- `YearFromTime`: the largest `y` with `DayFromYear y ≤ d`, computed from an
estimate that is at most one year off. -/
def YearFromDay (d : Int) : Int :=
  let y := 1970 + (400 * d) / 146097
  if d < DayFromYear y then y - 1
  else if DayFromYear (y + 1) ≤ d then y + 1
  else y

/-- `DayWithinYear`. -/
def DayWithinYear (d : Int) : Int := d - DayFromYear (YearFromDay d)

/-- `InLeapYear`. -/
def InLeapYear (d : Int) : Int := leapDay (YearFromDay d)

/-- `MonthFromTime`: the month 0..11 of a day. -/
def MonthFromDay (d : Int) : Int :=
  let w := DayWithinYear d
  let l := InLeapYear d
  if w < 31 then 0
  else if w < 59 + l then 1
  else if w < 90 + l then 2
  else if w < 120 + l then 3
  else if w < 151 + l then 4
  else if w < 181 + l then 5
  else if w < 212 + l then 6
  else if w < 243 + l then 7
  else if w < 273 + l then 8
  else if w < 304 + l then 9
  else if w < 334 + l then 10
  else 11

/-- `DateFromTime`: the day of the month of a day. -/
def DateFromDay (d : Int) : Int :=
  let w := DayWithinYear d
  let l := InLeapYear d
  match MonthFromDay d with
  | 0 => w + 1
  | 1 => w - 30
  | 2 => w - 58 - l
  | 3 => w - 89 - l
  | 4 => w - 119 - l
  | 5 => w - 150 - l
  | 6 => w - 180 - l
  | 7 => w - 211 - l
  | 8 => w - 242 - l
  | 9 => w - 272 - l
  | 10 => w - 303 - l
  | _ => w - 333 - l

/-- `WeekDay`: 0 is Sunday; day 0 was a Thursday. -/
def WeekDay (d : Int) : Int := (d + 4) % 7

/-- The number of days of a year before the first of month `mn` (0..11),
`l` being the leap-day count of the year. -/
def monthStart (mn : Int) (l : Int) : Int :=
  match mn with
  | 0 => 0
  | 1 => 31
  | 2 => 59 + l
  | 3 => 90 + l
  | 4 => 120 + l
  | 5 => 151 + l
  | 6 => 181 + l
  | 7 => 212 + l
  | 8 => 243 + l
  | 9 => 273 + l
  | 10 => 304 + l
  | _ => 334 + l

/-- `MakeDay(year, month, date)`: the month is carried into the year, and the
date counts on from the first of that month (date 0 is the day before it). -/
def MakeDay (year month date : Int) : Int :=
  let ym := year + month / 12
  let mn := month % 12
  DayFromYear ym + monthStart mn (leapDay ym) + date - 1

/-- `TimeClip` on day numbers: the time values of a `Date` reach 100 000 000
days to either side of 1 January 1970 (from 20 April -271821 to 13 September
275760); a day beyond them gives no time value, and the `Date` is an Invalid
Date (`none`). -/
def TimeClip (d : Int) : Option Int :=
  if -100000000 ≤ d ∧ d ≤ 100000000 then some d else none

/-- `new Date(year, month, day)` as a day number, or `none` for an Invalid
Date; a year 0..99 stands for 1900 + year. -/
def newDate (year month day : Int) : Option Int :=
  let yr := if 0 ≤ year ∧ year ≤ 99 then 1900 + year else year
  TimeClip (MakeDay yr month day)

/-- `Date.prototype.getDay`. -/
def getDay (d : Int) : Int := WeekDay d

/-- `Date.prototype.getDate`. -/
def getDate (d : Int) : Int := DateFromDay d

/-- `Date.prototype.getMonth`. -/
def getMonth (d : Int) : Int := MonthFromDay d

/-- `Date.prototype.getFullYear`. -/
def getFullYear (d : Int) : Int := YearFromDay d

/-- The length of month `mn` (0..11) of year `y`. -/
def monthLength (y mn : Int) : Int :=
  match mn with
  | 0 => 31
  | 1 => 28 + leapDay y
  | 2 => 31
  | 3 => 30
  | 4 => 31
  | 5 => 30
  | 6 => 31
  | 7 => 31
  | 8 => 30
  | 9 => 31
  | 10 => 30
  | _ => 31

/-! ## The calendar grid (schedule.js, lines 88-156) -/

/-- An entry of the `events` array, as `saveEvent` builds it. -/
structure Event where
  id : Int
  title : String
  date : String
  time : String
  description : String
  category : String
  priority : String
  createdAt : String
deriving DecidableEq

/-- What `createDayElement` puts on a day cell: its text (the day number,
`none` being `NaN`), its `data-date`, and the classes `other-month`, `today`
and `has-event`. -/
structure DayElement where
  textContent : Option Int
  date : String
  otherMonth : Bool
  today : Bool
  hasEvent : Bool
deriving DecidableEq

/-- `String(n).padStart(2, '0')` on a string `s`. -/
def padStart2 (s : String) : String :=
  String.mk (List.replicate (2 - s.length) '0') ++ s

/-- The function `hasEventOnDate(dateStr)` over the `events` array. -/
def hasEventOnDate (events : List Event) (dateStr : String) : Bool :=
  events.any (fun event => event.date == dateStr)

/-- `String(day)` of a day number; `none` is `NaN`. -/
def dayText : Option Int → String
  | some day => toString day
  | none => "NaN"

/-- The function `createDayElement(day, isOtherMonth, year, month)`; `events`
is the global array and `now` the day number of `new Date()`. A `day` that is
`NaN` (`none`) is equal to no day of the month. -/
def createDayElement (events : List Event) (now : Int) (day : Option Int) (isOtherMonth : Bool)
    (year month : Int) : DayElement :=
  let dateStr := toString year ++ "-" ++ padStart2 (toString (month + 1)) ++ "-" ++
    padStart2 (dayText day)
  { textContent := day
    date := dateStr
    otherMonth := isOtherMonth
    today := decide (year = getFullYear now) && decide (month = getMonth now) &&
      decide (day = some (getDate now)) && !isOtherMonth
    hasEvent := hasEventOnDate events dateStr }

/-- The constant `firstDay` of `renderCalendar`; `none` is the `NaN` that
`getDay` gives on an Invalid Date. -/
def firstDay (year month : Int) : Option Int := (newDate year month 1).map getDay

/-- The constant `daysInMonth` of `renderCalendar`; `none` is `NaN`. -/
def daysInMonth (year month : Int) : Option Int := (newDate year (month + 1) 0).map getDate

/-- The constant `daysInPrevMonth` of `renderCalendar`; `none` is `NaN`. -/
def daysInPrevMonth (year month : Int) : Option Int := (newDate year month 0).map getDate

/-- The first loop of `renderCalendar`: `i` runs from `firstDay - 1` down to 0.
With `firstDay` a `NaN` the test `i >= 0` fails at once; with
`daysInPrevMonth` a `NaN` every `day` of the loop is `NaN`. -/
def prevMonthCells (events : List Event) (now year month : Int) : List DayElement :=
  match firstDay year month with
  | none => []
  | some first =>
    (List.range first.toNat).reverse.map (fun (i : Nat) =>
      createDayElement events now
        ((daysInPrevMonth year month).map (fun prev => prev - (i : Int))) true year (month - 1))

/-- The second loop of `renderCalendar`: `day` runs from 1 to `daysInMonth`.
With `daysInMonth` a `NaN` the test `day <= daysInMonth` fails at once. -/
def currentMonthCells (events : List Event) (now year month : Int) : List DayElement :=
  match daysInMonth year month with
  | none => []
  | some days =>
    (List.range days.toNat).map (fun (k : Nat) =>
      createDayElement events now (some ((k : Int) + 1)) false year month)

/-- The third loop of `renderCalendar`: `day` runs from 1 to `remainingCells`,
which is 42 minus the `totalCells` appended so far. -/
def nextMonthCells (events : List Event) (now year month : Int) (totalCells : Nat) :
    List DayElement :=
  (List.range ((42 : Int) - (totalCells : Int)).toNat).map (fun (k : Nat) =>
    createDayElement events now (some ((k : Int) + 1)) true year (month + 1))

/-- The function `renderCalendar()`: the children of `calendarDays` after the
call, for `year = currentDate.getFullYear()` and `month = currentDate.getMonth()`. -/
def renderCalendar (events : List Event) (now year month : Int) : List DayElement :=
  let children := prevMonthCells events now year month ++ currentMonthCells events now year month
  children ++ nextMonthCells events now year month children.length

/-! ## The event collection (schedule.js, lines 201-344) -/

/-- The values of the form fields that `saveEvent` reads. -/
structure EventForm where
  title : String
  date : String
  time : String
  description : String
  category : String
  priority : String
deriving DecidableEq

/-- A call `showNotification(message, type)`; the pictograph that ends two of
the messages is left out. -/
structure Notification where
  message : String
  type : String
deriving DecidableEq

/-- The module variables `events` and `editingEventId`; `none` is `null`. -/
structure ScheduleState where
  events : List Event
  editingEventId : Option Int
deriving DecidableEq

/-- `String.prototype.trim`: white space removed at both ends. -/
def trim (s : String) : String :=
  String.mk ((s.data.dropWhile isWhiteSpace).reverse.dropWhile isWhiteSpace).reverse

/-- The truth value of `editingEventId` in a condition: `null` and `0` are
falsy, every other number is truthy. -/
def isTruthy : Option Int → Bool
  | some id => id != 0
  | none => false

/-- The function `saveEvent()`: `form` holds the field values, `now` is
`Date.now()` and `nowIso` is `new Date().toISOString()`. The result is the
state after the call with the notification shown, or the `TypeError` of
reading `createdAt` of `undefined`, which is raised before any assignment. -/
def saveEvent (s : ScheduleState) (form : EventForm) (now : Int) (nowIso : String) :
    Except JsError (ScheduleState × Notification) :=
  let title := trim form.title
  let date := form.date
  let time := form.time
  let description := trim form.description
  let category := form.category
  let priority := form.priority
  if title = "" ∨ date = "" ∨ category = "" ∨ priority = "" then
    .ok (s, { message := "Please fill in all required fields", type := "error" })
  else
    let editingId := s.editingEventId.getD 0
    let createdAt : Except JsError String :=
      if isTruthy s.editingEventId then
        match s.events.find? (fun e => e.id == editingId) with
        | some found => .ok found.createdAt
        | none => .error .typeError
      else .ok nowIso
    match createdAt with
    | .error err => .error err
    | .ok createdAt =>
      let event : Event :=
        { id := if isTruthy s.editingEventId then editingId else now
          title := title
          date := date
          time := time
          description := description
          category := category
          priority := priority
          createdAt := createdAt }
      if isTruthy s.editingEventId then
        let events :=
          match s.events.findIdx? (fun e => e.id == editingId) with
          | some index => s.events.set index event
          | none => s.events
        .ok ({ events := events, editingEventId := none },
          { message := "Event updated successfully!", type := "success" })
      else
        .ok ({ events := s.events ++ [event], editingEventId := none },
          { message := "Event added successfully!", type := "success" })

/-- The function `deleteEvent(button)` for the card of id `eventId`;
`confirmed` is the answer to the `confirm` dialog. The notification is the one
shown after the removal animation. -/
def deleteEvent (s : ScheduleState) (eventId : Int) (confirmed : Bool) :
    ScheduleState × Option Notification :=
  if confirmed then
    ({ s with events := s.events.filter (fun e => e.id != eventId) },
      some { message := "Event deleted", type := "info" })
  else (s, none)

/-! ## Sorting the event list (schedule.js, lines 325-347) -/

/-- The value of a decimal digit. -/
def digitValue (c : Char) : Option Nat :=
  if c.isDigit then some (c.toNat - 48) else none

/-- The number written by the digits `cs`, most significant first. -/
def digitsValue (cs : List Char) : Option Nat :=
  cs.foldl (fun acc c => do
    let n ← acc
    let d ← digitValue c
    pure (10 * n + d)) (some 0)

/-- The day number of a date `YYYY-MM-DD` given by its characters: the month
is one of 01..12 and the day one of 01..31. A day past the end of the month
is outside the date-time format and read as the engine reads it; it is taken
here as V8 takes it, counting on into the next month ("2024-02-30" is 1 March
2024). -/
def parseDay (cs : List Char) : Option Int :=
  match cs with
  | [y1, y2, y3, y4, '-', m1, m2, '-', d1, d2] =>
    match digitsValue [y1, y2, y3, y4], digitsValue [m1, m2], digitsValue [d1, d2] with
    | some y, some m, some d =>
      if 1 ≤ m ∧ m ≤ 12 ∧ 1 ≤ d ∧ d ≤ 31 then
        some (MakeDay y ((m : Int) - 1) d)
      else none
    | _, _, _ => none
  | _ => none

/-- The milliseconds of hour `h`, minute `n`, second `sec` and `ms`
milliseconds of a day; the hour 24 is the end of the day and stands with
zeros only. -/
def timeOfDay (h n sec ms : Nat) : Option Int :=
  if (h ≤ 23 ∧ n ≤ 59 ∧ sec ≤ 59) ∨ (h = 24 ∧ n = 0 ∧ sec = 0 ∧ ms = 0) then
    some (3600000 * (h : Int) + 60000 * (n : Int) + 1000 * (sec : Int) + (ms : Int))
  else none

/-- The milliseconds of the day of a time given by its characters, in the
forms `HH:mm`, `HH:mm:ss` and `HH:mm:ss.sss` of the date-time format, which
are the forms of the value of a time field; of a fraction the first three
digits count. -/
def parseTime (cs : List Char) : Option Int :=
  match cs with
  | [h1, h2, ':', n1, n2] =>
    match digitsValue [h1, h2], digitsValue [n1, n2] with
    | some h, some n => timeOfDay h n 0 0
    | _, _ => none
  | [h1, h2, ':', n1, n2, ':', s1, s2] =>
    match digitsValue [h1, h2], digitsValue [n1, n2], digitsValue [s1, s2] with
    | some h, some n, some sec => timeOfDay h n sec 0
    | _, _, _ => none
  | h1 :: h2 :: ':' :: n1 :: n2 :: ':' :: s1 :: s2 :: '.' :: f1 :: frac =>
    match digitsValue [h1, h2], digitsValue [n1, n2], digitsValue [s1, s2],
      digitsValue (f1 :: frac), digitsValue ((f1 :: frac ++ ['0', '0']).take 3) with
    | some h, some n, some sec, some _, some ms => timeOfDay h n sec ms
    | _, _, _, _, _ => none
  | _ => none

/-- `new Date(s)` as a time value in milliseconds (`none` is an invalid date),
for the two forms the sort builds: the date-only form `YYYY-MM-DD` is read as
UTC, the form `YYYY-MM-DDTHH:mm` as local time. `tz` is the offset of local
time from UTC in minutes (480 for UTC+8). -/
def parseDate (tz : Int) (s : String) : Option Int :=
  if s.data.length = 10 then
    (parseDay s.data).map (fun day => 86400000 * day)
  else
    match parseDay (s.data.take 10), s.data.drop 10 with
    | some day, 'T' :: rest =>
      (parseTime rest).map (fun time => 86400000 * day + time - 60000 * tz)
    | _, _ => none

/-- The date an event is sorted by: `new Date(a.date + (a.time ? 'T' + a.time : ''))`. -/
def eventDate (tz : Int) (a : Event) : Option Int :=
  parseDate tz (a.date ++ (if a.time ≠ "" then "T" ++ a.time else ""))

/-- The comparator of the sort, `dateA - dateB`, as the sort reads it: the
difference of two time values, and +0 for the `NaN` that an invalid date
makes of it (the step `SortCompare` of `Array.prototype.sort`). -/
def compareEvents (tz : Int) (a b : Event) : Int :=
  match eventDate tz a, eventDate tz b with
  | some dateA, some dateB => dateA - dateB
  | _, _ => 0

/-- `Array.prototype.sort` with a comparator that is consistent on the
elements of the list, as `compareEvents` is on events whose dates all parse:
the sort is stable, and its result is then the one list that is ordered by
the comparator and keeps equal elements in their order, which an insertion
sort computes. With an event whose date does not parse the comparator is not
consistent and the order of the result is left to the engine; the statements
about the sorted list are made for parsed dates only. -/
def sortWith {α : Type} (compare : α → α → Int) (l : List α) : List α :=
  l.insertionSort (fun a b => compare a b ≤ 0)

/-- The function `renderEventsList()`: the state after the call and the events
in the order of the cards written to the list; the sort works on the copy
`[...events]`. With no events the list is hidden and nothing is written. -/
def renderEventsList (tz : Int) (s : ScheduleState) : ScheduleState × List Event :=
  if s.events.length = 0 then (s, [])
  else
    let copy := s.events
    let sortedEvents := sortWith (compareEvents tz) copy
    (s, sortedEvents)

/-! ## parseInt and formatTime (exercise.js, lines 257-264; nutrition.js, lines 514-520) -/

/-- The value of a digit in radix 16. -/
def hexDigitValue (c : Char) : Option Nat :=
  if c.isDigit then some (c.toNat - 48)
  else if 'a'.toNat ≤ c.toNat ∧ c.toNat ≤ 'f'.toNat then some (c.toNat - 87)
  else if 'A'.toNat ≤ c.toNat ∧ c.toNat ≤ 'F'.toNat then some (c.toNat - 55)
  else none

/-- The number written in radix `radix` by the longest run of digits at the
start of `cs`, with the count of digits read. -/
def leadingDigits (radix : Nat) (digit : Char → Option Nat) :
    List Char → Nat × Nat → Nat × Nat
  | [], acc => acc
  | c :: cs, acc =>
    match digit c with
    | some d => leadingDigits radix digit cs (radix * acc.1 + d, acc.2 + 1)
    | none => acc

/-- `parseInt(string)` with no radix given: leading white space is skipped, a
sign is read, a prefix `0x` selects radix 16, and the longest run of digits
is the value, as the exact integer it writes; `none` is `NaN`, the result when
there is no digit. -/
def parseInt (s : String) : Option Int :=
  let cs := s.data.dropWhile isWhiteSpace
  let negative := cs.head? = some '-'
  let cs := if cs.head? = some '-' ∨ cs.head? = some '+' then cs.drop 1 else cs
  let hex := cs.take 2 = ['0', 'x'] ∨ cs.take 2 = ['0', 'X']
  let r :=
    if hex then leadingDigits 16 hexDigitValue (cs.drop 2) (0, 0)
    else leadingDigits 10 digitValue cs (0, 0)
  if r.2 = 0 then none
  else if negative then some (-(r.1 : Int)) else some (r.1 : Int)

/-- `string.split(separator)` for a one-character separator, on the
characters. -/
def splitOn (sep : Char) : List Char → List (List Char)
  | [] => [[]]
  | c :: cs =>
    if c = sep then [] :: splitOn sep cs
    else
      match splitOn sep cs with
      | [] => [[c]]
      | part :: parts => (c :: part) :: parts

/-- The text of a template hole holding the integer-or-NaN `n`. -/
def intText : Option Int → String
  | some n => toString n
  | none => "NaN"

namespace Exercise

/-- The function `formatTime(time)` of exercise.js. A missing second part
is `undefined` in the template. -/
def formatTime (time : String) : String :=
  let parts := splitOn ':' time.data
  let hours := String.mk (parts.headD [])
  let minutes := match parts.tail.head? with
    | some part => String.mk part
    | none => "undefined"
  let hour := parseInt hours
  let ampm := match hour with
    | some h => if h ≥ 12 then "PM" else "AM"
    | none => "AM"
  let displayHour : Option Int := match hour with
    | some h => if h.tmod 12 ≠ 0 then some (h.tmod 12) else some 12
    | none => some 12
  intText displayHour ++ ":" ++ minutes ++ " " ++ ampm

end Exercise

namespace Nutrition

/-- The function `formatTime(time)` of nutrition.js. A missing second part
is `undefined` in the template. -/
def formatTime (time : String) : String :=
  let parts := splitOn ':' time.data
  let hours := String.mk (parts.headD [])
  let minutes := match parts.tail.head? with
    | some part => String.mk part
    | none => "undefined"
  let hour := parseInt hours
  let ampm := match hour with
    | some h => if h ≥ 12 then "PM" else "AM"
    | none => "AM"
  let displayHour : Option Int := match hour with
    | some h => if h.tmod 12 ≠ 0 then some (h.tmod 12) else some 12
    | none => some 12
  intText displayHour ++ ":" ++ minutes ++ " " ++ ampm

end Nutrition

/-! ## The goal setters (nutrition.js, lines 379-395; sleep.js, lines 354-370) -/

/-- An integer-or-NaN as a number. -/
def JsNumber.ofInt : Option Int → JsNumber
  | some n => .num (n : ℚ)
  | none => .nan

/-- The comparison `a < b` of numbers: false when either is `NaN`. -/
def JsNumber.lt : JsNumber → JsNumber → Bool
  | .num a, .num b => decide (a < b)
  | _, _ => false

/-- The truth value of a number in a condition: `0` and `NaN` are falsy. -/
def JsNumber.truthy : JsNumber → Bool
  | .num a => decide (a ≠ 0)
  | .nan => false

/-- The function `saveDailyGoal()`: `dailyGoal` is the variable before the
call and `field` the value of the input `goalCalories`; the result is the
variable after the call and the notification. -/
def saveDailyGoal (dailyGoal : JsNumber) (field : String) : JsNumber × Notification :=
  let newGoal := parseInt field
  if (JsNumber.ofInt newGoal).lt (.num 1000) || (JsNumber.num 5000).lt (JsNumber.ofInt newGoal) then
    (dailyGoal, Notification.mk "Please enter a goal between 1000 and 5000 calories" "error")
  else
    (JsNumber.ofInt newGoal,
      Notification.mk ("Daily goal updated to " ++ intText newGoal ++ " kcal") "success")

/-- The function `updateGoal()`: `sleepGoal` is the variable before the call,
`newGoal` the number `parseFloat(goalInput.value)`, which is `NaN` for an
empty or non-numeric field, and `numberText` the conversion of a number to
its text. -/
def updateGoal (numberText : JsNumber → String) (sleepGoal newGoal : JsNumber) :
    JsNumber × Notification :=
  if newGoal.lt (.num 4) || (JsNumber.num 12).lt newGoal then
    (sleepGoal, Notification.mk "Please set a goal between 4 and 12 hours" "error")
  else
    (newGoal,
      Notification.mk ("Sleep goal updated to " ++ numberText newGoal ++ " hours!") "success")

/-! ## The sleep log (sleep.js, lines 48-99 and 203-214) -/

/-- An entry of the `sleepEntries` array, as `logSleep` builds it. -/
structure SleepEntry where
  id : Int
  date : String
  hours : JsNumber
  bedtime : String
  wakeTime : String
  quality : Option Int
  notes : String
  createdAt : String
deriving DecidableEq

/-- The values `logSleep` reads from the form; `hours` is the number
`parseFloat` makes of the field `sleepHours`, `NaN` when the field is empty. -/
structure SleepForm where
  date : String
  hours : JsNumber
  bedtime : String
  wakeTime : String
  quality : String
  notes : String
deriving DecidableEq

/-- The function `logSleep()` on the array `sleepEntries`; `now` is
`Date.now()` and `nowIso` is `new Date().toISOString()`. -/
def logSleep (sleepEntries : List SleepEntry) (form : SleepForm) (now : Int)
    (nowIso : String) : List SleepEntry × Notification :=
  let date := form.date
  let hours := form.hours
  let quality := form.quality
  let notes := trim form.notes
  if date = "" ∨ hours.truthy = false ∨ quality = "" then
    (sleepEntries, Notification.mk "Please fill in all required fields" "error")
  else if hours.lt (.num 0) || (JsNumber.num 24).lt hours then
    (sleepEntries, Notification.mk "Sleep hours must be between 0 and 24" "error")
  else
    match sleepEntries.findIdx? (fun e => e.date == date) with
    | some existingIndex =>
      match sleepEntries[existingIndex]? with
      | some existing =>
        let entry : SleepEntry :=
          { id := existing.id, date := date, hours := hours, bedtime := form.bedtime,
            wakeTime := form.wakeTime, quality := parseInt quality, notes := notes,
            createdAt := existing.createdAt }
        (sleepEntries.set existingIndex entry,
          Notification.mk "Sleep entry updated!" "success")
      | none => (sleepEntries, Notification.mk "Sleep entry updated!" "success")
    | none =>
      let entry : SleepEntry :=
        { id := now, date := date, hours := hours, bedtime := form.bedtime,
          wakeTime := form.wakeTime, quality := parseInt quality, notes := notes,
          createdAt := nowIso }
      (sleepEntries ++ [entry], Notification.mk "Sleep logged successfully!" "success")

/-- The function `deleteEntry(id)` on the array `sleepEntries`; `confirmed`
is the answer to the `confirm` dialog. -/
def deleteEntry (sleepEntries : List SleepEntry) (id : Int) (confirmed : Bool) :
    List SleepEntry × Option Notification :=
  if confirmed then
    (sleepEntries.filter (fun e => e.id != id),
      some (Notification.mk "Sleep entry deleted" "info"))
  else (sleepEntries, none)

/-! ## The event modal (schedule.js, lines 201-231 and 279-300) -/

/-- The function `showAddEventModal(date)`, on the module variables. -/
def showAddEventModal (s : ScheduleState) : ScheduleState :=
  { s with editingEventId := none }

/-- The function `closeEventModal()`, on the module variables. -/
def closeEventModal (s : ScheduleState) : ScheduleState :=
  { s with editingEventId := none }

/-- The function `editEvent(button)` for the card of id `eventId`: without an
event of that id it returns at once. -/
def editEvent (s : ScheduleState) (eventId : Int) : ScheduleState :=
  match s.events.find? (fun e => e.id == eventId) with
  | some _ => { s with editingEventId := some eventId }
  | none => s

/-- A call of one of the five functions, with what it reads from the page and
the clock. -/
inductive Action where
  | showAddEventModal
  | editEvent (eventId : Int)
  | closeEventModal
  | saveEvent (form : EventForm) (now : Int) (nowIso : String)
  | deleteEvent (eventId : Int)

/-- The state after a call; a `saveEvent` that raises leaves the variables as
they were, and `deleteEvent` is confirmed. -/
def Action.apply (s : ScheduleState) : Action → ScheduleState
  | .showAddEventModal => WellUP.showAddEventModal s
  | .editEvent eventId => WellUP.editEvent s eventId
  | .closeEventModal => WellUP.closeEventModal s
  | .saveEvent form now nowIso =>
    match WellUP.saveEvent s form now nowIso with
    | .ok (s2, _) => s2
    | .error _ => s
  | .deleteEvent eventId => (WellUP.deleteEvent s eventId true).1

/-- The state after a sequence of calls, from the state `s`. -/
def runActions (s : ScheduleState) (actions : List Action) : ScheduleState :=
  actions.foldl Action.apply s

/-! ## isValidEmail (app.js, lines 133-136) -/

/-- The classes of characters that the pattern tells apart. -/
inductive CharClass where
  | space
  | at
  | dot
  | other
deriving DecidableEq

/-- The class of a character: `\s` is the white space of ECMAScript. -/
def charClass (c : Char) : CharClass :=
  if isWhiteSpace c then .space
  else if c = '@' then .at
  else if c = '.' then .dot
  else .other

/-- The class `[^\s@]`: a dot or any other character. -/
def notSpaceAt : RegularExpression CharClass :=
  RegularExpression.char CharClass.dot + RegularExpression.char CharClass.other

/-- The pattern `/^[^\s@]+@[^\s@]+\.[^\s@]+$/`, on character classes; `x+` is
`x` followed by `x*`. -/
def emailRegex : RegularExpression CharClass :=
  (notSpaceAt * RegularExpression.star notSpaceAt) * RegularExpression.char CharClass.at *
    (notSpaceAt * RegularExpression.star notSpaceAt) * RegularExpression.char CharClass.dot *
    (notSpaceAt * RegularExpression.star notSpaceAt)

/-- The function `isValidEmail(email)`: `emailRegex.test(email)`. -/
def isValidEmail (email : String) : Bool :=
  emailRegex.rmatch (email.data.map charClass)

/-! ## Sample data of the examples -/

/-- An event with the given id, date and time, the other fields fixed. -/
def sampleEvent (id : Int) (date time : String) : Event :=
  { id := id, title := "Meeting", date := date, time := time, description := "",
    category := "work", priority := "medium", createdAt := "2024-01-01T08:00:00.000Z" }

/-- A form input with every required field filled in; the title has white
space around it. -/
def sampleForm : EventForm :=
  { title := " Dentist ", date := "2024-03-05", time := "09:30", description := "",
    category := "health", priority := "high" }

/-- Two events with the ids 1 and 2. -/
def sampleEvents : List Event :=
  [sampleEvent 1 "2024-01-01" "", sampleEvent 2 "2024-01-02" ""]

/-- A sleep entry with the given id and date, the other fields fixed. -/
def sampleSleepEntry (id : Int) (date : String) : SleepEntry :=
  SleepEntry.mk id date (.num 7) "23:00" "06:00" (some 4) "" "2024-01-01T08:00:00.000Z"

/-- Two sleep entries, of 1 and 2 January 2024. -/
def sampleSleepEntries : List SleepEntry :=
  [sampleSleepEntry 1 "2024-01-01", sampleSleepEntry 2 "2024-01-02"]

/-- A sleep form for the given date and hours, the other fields filled in. -/
def sampleSleepForm (date : String) (hours : JsNumber) : SleepForm :=
  SleepForm.mk date hours "22:30" "06:30" "5" " slept well "


/-! # Theorems -/

/-! ## Substring search -/

theorem includes_iff (s k : String) : includes s k = true ↔ k.data <:+: s.data := by
  unfold includes
  rw [List.any_eq_true, List.infix_iff_prefix_suffix]
  constructor
  · rintro ⟨t, ht, hk⟩
    exact ⟨t, List.isPrefixOf_iff_prefix.mp hk, (List.mem_tails _ _).mp ht⟩
  · rintro ⟨t, hk, ht⟩
    exact ⟨t, (List.mem_tails _ _).mpr ht, List.isPrefixOf_iff_prefix.mpr hk⟩

theorem includes_trans {s k j : String} (hk : includes s k = true)
    (hj : includes k j = true) : includes s j = true :=
  (includes_iff s j).mpr (((includes_iff k j).mp hj).trans ((includes_iff s k).mp hk))

theorem includes_deep_fried (s : String) (h : includes s "deep fried" = true) :
    includes s "fried" = true :=
  includes_trans h (by decide)

theorem fried_or (s : String) :
    (includes s "fried" || includes s "deep fried") = includes s "fried" := by
  cases h : includes s "deep fried"
  · simp
  · simp [includes_deep_fried s h]

/-! ## The loop of estimateCalories -/

theorem table_keys : ∀ entry ∈ calorieDatabase,
    entry.2.map Prod.fst = ["small", "medium", "large"] := by decide

theorem portionValue_key {calories : PortionValues}
    (h : calories.map Prod.fst = ["small", "medium", "large"]) (p : Portion) :
    portionValue calories p.key = .num (tableValue calories p) := by
  match calories, h with
  | [(_, a), (_, b), (_, c)], h =>
    simp only [List.map, List.cons.injEq, and_true] at h
    obtain ⟨h1, h2, h3⟩ := h
    subst h1 h2 h3
    cases p <;> simp [portionValue, tableValue, Portion.key, List.lookup]

theorem portionValue_other {calories : PortionValues}
    (h : calories.map Prod.fst = ["small", "medium", "large"]) {portion : String}
    (hp : portion ≠ "small" ∧ portion ≠ "medium" ∧ portion ≠ "large") :
    portionValue calories portion = .nan := by
  match calories, h with
  | [(_, a), (_, b), (_, c)], h =>
    simp only [List.map, List.cons.injEq, and_true] at h
    obtain ⟨h1, h2, h3⟩ := h
    subst h1 h2 h3
    have e1 : (portion == "small") = false := by simpa using hp.1
    have e2 : (portion == "medium") = false := by simpa using hp.2.1
    have e3 : (portion == "large") = false := by simpa using hp.2.2
    simp [portionValue, List.lookup, e1, e2, e3]

/-- The state of the loop after the entries `l`, started from total `a` and
`n` matches, for a valid portion. -/
theorem foldl_matchStep (t : String) (p : Portion) :
    ∀ (l : List (String × PortionValues)),
      (∀ entry ∈ l, entry.2.map Prod.fst = ["small", "medium", "large"]) →
      ∀ (a : ℚ) (n : Nat),
        l.foldl (matchStep t p.key) (JsNumber.num a, n) =
          (JsNumber.num (a + (((l.filter (fun entry => includes t entry.1)).map
              (fun entry => tableValue entry.2 p)).sum : Nat)),
            n + (l.filter (fun entry => includes t entry.1)).length) := by
  intro l
  induction l with
  | nil => intro _ a n; simp
  | cons e l ih =>
    intro hl a n
    have he := hl e (List.mem_cons_self e l)
    have hl2 : ∀ entry ∈ l, entry.2.map Prod.fst = ["small", "medium", "large"] :=
      fun x hx => hl x (List.mem_cons_of_mem e hx)
    rw [List.foldl_cons]
    cases hinc : includes t e.1
    · simp [matchStep, hinc, ih hl2, List.filter]
    · simp only [matchStep, hinc, if_true, portionValue_key he, JsNumber.add, ih hl2,
        List.filter, List.map_cons, List.sum_cons, List.length_cons, Nat.cast_add]
      refine Prod.ext ?_ ?_
      · show JsNumber.num _ = JsNumber.num _
        congr 1
        ring
      · show n + 1 + _ = n + (_ + 1)
        omega

/-- The state of the loop for a property name that is not a portion size. -/
theorem foldl_matchStep_other (t : String) {portion : String}
    (hp : portion ≠ "small" ∧ portion ≠ "medium" ∧ portion ≠ "large") :
    ∀ (l : List (String × PortionValues)),
      (∀ entry ∈ l, entry.2.map Prod.fst = ["small", "medium", "large"]) →
      ∀ (st : JsNumber × Nat), (st.2 ≠ 0 → st.1 = .nan) →
        (l.foldl (matchStep t portion) st).2 ≠ 0 →
          (l.foldl (matchStep t portion) st).1 = .nan := by
  intro l
  induction l with
  | nil => intro _ st hst; simpa using hst
  | cons e l ih =>
    intro hl st hst
    have he := hl e (List.mem_cons_self e l)
    have hl2 : ∀ entry ∈ l, entry.2.map Prod.fst = ["small", "medium", "large"] :=
      fun x hx => hl x (List.mem_cons_of_mem e hx)
    rw [List.foldl_cons]
    apply ih hl2
    unfold matchStep
    split
    · intro _
      rw [portionValue_other he hp]
      cases st.1 <;> rfl
    · exact hst

theorem lookup_meal :
    calorieDatabase.lookup "meal" = some [("small", 300), ("medium", 500), ("large", 700)] := by
  decide

theorem mealDefault_key (p : Portion) :
    mealDefault p.key =
      .ok (.num (tableValue ((calorieDatabase.lookup "meal").getD []) p)) := by
  unfold mealDefault
  rw [lookup_meal]
  simp only [Option.getD_some]
  rw [portionValue_key (by rfl)]

/-- The loop and the fallback together compute the base value. -/
theorem baseCalories_eq (t : String) (p : Portion) :
    baseCalories t p.key = .ok (.num (referenceBase t p)) := by
  unfold baseCalories
  simp only
  rw [foldl_matchStep t p calorieDatabase table_keys 0 0]
  unfold referenceBase matchedEntries
  by_cases h : calorieDatabase.filter (fun entry => includes t entry.1) = []
  · simp only [h, List.length_nil, if_true, mealDefault_key]
  · have hlen : ¬ ((calorieDatabase.filter (fun entry => includes t entry.1)).length = 0) := by
      rw [List.length_eq_zero]
      exact h
    simp only [h, hlen, if_false, zero_add, Nat.zero_add]

/-- The running total at the `return`, in closed form: the base value times
the factors, plus the flat additions. -/
theorem estimateTotal_formula (toLowerCase : String → String) (foodText : String)
    (p : Portion) :
    estimateTotal toLowerCase foodText p.key =
      .ok (.num ((referenceBase (toLowerCase foodText) p : ℚ)
        * (if includes (toLowerCase foodText) "fried" then 1.3 else 1)
        * (if includes (toLowerCase foodText) "grilled" ||
            includes (toLowerCase foodText) "steamed" then 0.9 else 1)
        + (if includes (toLowerCase foodText) "oil" ||
            includes (toLowerCase foodText) "butter" then 100 else 0)
        + (if includes (toLowerCase foodText) "salad" &&
            includes (toLowerCase foodText) "dressing" then 150 else 0))) := by
  unfold estimateTotal
  simp only [baseCalories_eq, fried_or]
  cases includes (toLowerCase foodText) "fried" <;>
  cases includes (toLowerCase foodText) "grilled" <;>
  cases includes (toLowerCase foodText) "steamed" <;>
  cases includes (toLowerCase foodText) "oil" <;>
  cases includes (toLowerCase foodText) "butter" <;>
  cases includes (toLowerCase foodText) "salad" <;>
  cases includes (toLowerCase foodText) "dressing" <;>
  simp [JsNumber.mul, JsNumber.add]

/-- The code's running total is the reference total, for every portion size. -/
theorem estimateTotal_eq (toLowerCase : String → String) (foodText : String) (p : Portion) :
    estimateTotal toLowerCase foodText p.key =
      .ok (.num (referenceTotal (toLowerCase foodText) p)) := by
  rw [estimateTotal_formula]
  unfold referenceTotal
  cases includes (toLowerCase foodText) "fried" <;>
  cases includes (toLowerCase foodText) "grilled" <;>
  cases includes (toLowerCase foodText) "steamed" <;>
  cases includes (toLowerCase foodText) "oil" <;>
  cases includes (toLowerCase foodText) "butter" <;>
  cases includes (toLowerCase foodText) "salad" <;>
  cases includes (toLowerCase foodText) "dressing" <;>
  simp

/-- The result in terms of the running total. -/
theorem estimateCalories_of_total {toLowerCase : String → String} {foodText portion : String}
    {u : ℚ} (h : estimateTotal toLowerCase foodText portion = .ok (.num u)) :
    estimateCalories toLowerCase foodText portion =
      .ok (.num (((⌊u / 10 + 1 / 2⌋ : ℤ) : ℚ) * 10)) := by
  unfold estimateCalories
  rw [h]
  rfl

/-- The code's result is the reference estimate, for every portion size. -/
theorem estimateCalories_eq (toLowerCase : String → String) (foodText : String) (p : Portion) :
    estimateCalories toLowerCase foodText p.key =
      .ok (.num (referenceEstimate (toLowerCase foodText) p)) := by
  rw [estimateCalories_of_total (estimateTotal_eq toLowerCase foodText p)]
  simp only [referenceEstimate, round_eq]

/-- Evaluation of the running total from the base value and the four
modifier tests of a text. -/
theorem total_of_flags (toLowerCase : String → String) (foodText : String) (p : Portion)
    (b : Nat) (f g o d : Bool)
    (hb : referenceBase (toLowerCase foodText) p = b)
    (hf : includes (toLowerCase foodText) "fried" = f)
    (hg : (includes (toLowerCase foodText) "grilled" ||
      includes (toLowerCase foodText) "steamed") = g)
    (ho : (includes (toLowerCase foodText) "oil" ||
      includes (toLowerCase foodText) "butter") = o)
    (hd : (includes (toLowerCase foodText) "salad" &&
      includes (toLowerCase foodText) "dressing") = d) :
    estimateTotal toLowerCase foodText p.key =
      .ok (.num ((b : ℚ) * (if f then 1.3 else 1) * (if g then 0.9 else 1)
        + (if o then 100 else 0) + (if d then 150 else 0))) := by
  rw [estimateTotal_formula toLowerCase foodText p, hb, hf, hg, ho, hd]

/-- Evaluation of the estimate from the base value and the four modifier
tests of a text. -/
theorem estimate_of_flags (toLowerCase : String → String) (foodText : String) (p : Portion)
    (b : Nat) (f g o d : Bool)
    (hb : referenceBase (toLowerCase foodText) p = b)
    (hf : includes (toLowerCase foodText) "fried" = f)
    (hg : (includes (toLowerCase foodText) "grilled" ||
      includes (toLowerCase foodText) "steamed") = g)
    (ho : (includes (toLowerCase foodText) "oil" ||
      includes (toLowerCase foodText) "butter") = o)
    (hd : (includes (toLowerCase foodText) "salad" &&
      includes (toLowerCase foodText) "dressing") = d) :
    estimateCalories toLowerCase foodText p.key =
      .ok (.num (((⌊((b : ℚ) * (if f then 1.3 else 1) * (if g then 0.9 else 1)
        + (if o then 100 else 0) + (if d then 150 else 0)) / 10 + 1 / 2⌋ : ℤ) : ℚ) * 10)) :=
  estimateCalories_of_total (total_of_flags toLowerCase foodText p b f g o d hb hf hg ho hd)

theorem plain_rice_value :
    estimateCalories asciiLower "plain rice" Portion.medium.key = .ok (.num 250) := by
  rw [estimate_of_flags asciiLower "plain rice" .medium 250 false false false false
    (by decide) (by decide) (by decide) (by decide) (by decide)]
  norm_num [Int.floor_eq_iff]

theorem fried_chicken_rice_value :
    estimateCalories asciiLower "fried chicken rice" Portion.medium.key = .ok (.num 1430) := by
  rw [estimate_of_flags asciiLower "fried chicken rice" .medium 1100 true false false false
    (by decide) (by decide) (by decide) (by decide) (by decide)]
  norm_num [Int.floor_eq_iff]

theorem mystery_dish_value :
    estimateCalories asciiLower "mystery dish" Portion.large.key = .ok (.num 700) := by
  rw [estimate_of_flags asciiLower "mystery dish" .large 700 false false false false
    (by decide) (by decide) (by decide) (by decide) (by decide)]
  norm_num [Int.floor_eq_iff]

theorem grilled_fish_oil_value :
    estimateCalories asciiLower "grilled fish with oil" Portion.small.key = .ok (.num 210) := by
  rw [estimate_of_flags asciiLower "grilled fish with oil" .small 120 false true true false
    (by decide) (by decide) (by decide) (by decide) (by decide)]
  norm_num [Int.floor_eq_iff]

theorem fried_grilled_fish_value :
    estimateCalories asciiLower "fried and grilled fish" Portion.medium.key =
      .ok (.num 230) := by
  rw [estimate_of_flags asciiLower "fried and grilled fish" .medium 200 true true false false
    (by decide) (by decide) (by decide) (by decide) (by decide)]
  norm_num [Int.floor_eq_iff]

/-! ## Fallback and unrecognised portions -/

theorem referenceBase_of_no_match {t : String}
    (h : ∀ entry ∈ calorieDatabase, includes t entry.1 = false) (p : Portion) :
    (referenceBase t p : ℚ) = mealFallback p := by
  have hm : matchedEntries t = [] := by
    unfold matchedEntries
    rw [List.filter_eq_nil_iff]
    intro entry he
    simp [h entry he]
  unfold referenceBase
  rw [if_pos hm, lookup_meal]
  cases p <;> simp [tableValue, Portion.key, List.lookup, mealFallback]

/-- With no keyword and no modifier word in the lower-cased text the result
is the value of `meal`. -/
theorem estimateCalories_fallback (toLowerCase : String → String) (foodText : String)
    (p : Portion)
    (hkw : ∀ entry ∈ calorieDatabase, includes (toLowerCase foodText) entry.1 = false)
    (hmod : ∀ w ∈ ["fried", "grilled", "steamed", "oil", "butter"],
      includes (toLowerCase foodText) w = false)
    (hsd : (includes (toLowerCase foodText) "salad" &&
      includes (toLowerCase foodText) "dressing") = false) :
    estimateCalories toLowerCase foodText p.key = .ok (.num (mealFallback p)) := by
  have h1 := hmod "fried" (by simp)
  have h2 := hmod "grilled" (by simp)
  have h3 := hmod "steamed" (by simp)
  have h4 := hmod "oil" (by simp)
  have h5 := hmod "butter" (by simp)
  rw [estimateCalories_of_total (estimateTotal_formula toLowerCase foodText p),
    referenceBase_of_no_match hkw, h1, h2, h3, h4, h5, hsd]
  cases p <;> norm_num [mealFallback, Int.floor_eq_iff]

theorem toLower_of_isWhiteSpace {c : Char} (h : isWhiteSpace c = true) : c.toLower = c := by
  have hn : ¬ (c.toNat ≥ 65 ∧ c.toNat ≤ 90) := by
    rintro ⟨h1, h2⟩
    simp only [isWhiteSpace, Bool.or_eq_true, decide_eq_true_eq, Bool.and_eq_true] at h
    omega
  unfold Char.toLower
  simp only
  rw [if_neg hn]

theorem asciiLower_of_whiteSpace {s : String} (h : ∀ c ∈ s.data, isWhiteSpace c = true) :
    asciiLower s = s := by
  unfold asciiLower
  have : s.data.map Char.toLower = s.data := by
    conv_rhs => rw [← List.map_id s.data]
    exact List.map_congr_left (fun c hc => toLower_of_isWhiteSpace (h c hc))
  rw [this]

theorem includes_false_of_whiteSpace {s k : String}
    (h : ∀ c ∈ s.data, isWhiteSpace c = true)
    (hk : k.data.any (fun c => !isWhiteSpace c) = true) : includes s k = false := by
  by_contra hc
  rw [Bool.not_eq_false, includes_iff] at hc
  rw [List.any_eq_true] at hk
  obtain ⟨c, hck, hcw⟩ := hk
  have := h c (hc.subset hck)
  simp [this] at hcw

theorem keywords_not_whiteSpace : ∀ entry ∈ calorieDatabase,
    entry.1.data.any (fun c => !isWhiteSpace c) = true := by decide

/-- A text of white-space characters only gets the value of `meal`. -/
theorem estimateCalories_whiteSpace (foodText : String) (p : Portion)
    (h : ∀ c ∈ foodText.data, isWhiteSpace c = true) :
    estimateCalories asciiLower foodText p.key = .ok (.num (mealFallback p)) := by
  apply estimateCalories_fallback
  · intro entry he
    rw [asciiLower_of_whiteSpace h]
    exact includes_false_of_whiteSpace h (keywords_not_whiteSpace entry he)
  · intro w hw
    rw [asciiLower_of_whiteSpace h]
    apply includes_false_of_whiteSpace h
    revert w
    decide
  · rw [asciiLower_of_whiteSpace h, includes_false_of_whiteSpace h (by decide)]
    rfl

theorem baseCalories_other (t : String) {portion : String}
    (hp : portion ≠ "small" ∧ portion ≠ "medium" ∧ portion ≠ "large") :
    baseCalories t portion = .ok .nan := by
  unfold baseCalories
  simp only
  split_ifs with h
  · unfold mealDefault
    rw [lookup_meal]
    simp only
    rw [portionValue_other (by rfl) hp]
  · rw [foldl_matchStep_other t hp calorieDatabase table_keys (JsNumber.num 0, 0)
      (fun h0 => absurd rfl h0) h]

/-- For a property name that is not a portion size the call returns `NaN`. -/
theorem estimateCalories_other (toLowerCase : String → String) (foodText : String)
    {portion : String}
    (hp : portion ≠ "small" ∧ portion ≠ "medium" ∧ portion ≠ "large") :
    estimateCalories toLowerCase foodText portion = .ok .nan := by
  unfold estimateCalories estimateTotal
  simp only [baseCalories_other _ hp]
  cases (includes (toLowerCase foodText) "fried" || includes (toLowerCase foodText) "deep fried") <;>
  cases (includes (toLowerCase foodText) "grilled" || includes (toLowerCase foodText) "steamed") <;>
  cases (includes (toLowerCase foodText) "oil" || includes (toLowerCase foodText) "butter") <;>
  cases (includes (toLowerCase foodText) "salad" && includes (toLowerCase foodText) "dressing") <;>
  rfl

theorem referenceTotal_nonneg (t : String) (p : Portion) : 0 ≤ referenceTotal t p := by
  unfold referenceTotal
  have hb : (0 : ℚ) ≤ (referenceBase t p : ℚ) := Nat.cast_nonneg _
  simp only
  split_ifs <;> nlinarith

/-- Rounding to the nearest multiple of 10, ties upward, of a non-negative
total. -/
theorem round10_spec (u : ℚ) (hu : 0 ≤ u) :
    ∃ n : ℕ, ((⌊u / 10 + 1 / 2⌋ : ℤ) : ℚ) * 10 = 10 * (n : ℚ) ∧
      (∀ m : ℤ, |10 * (n : ℚ) - u| ≤ |10 * (m : ℚ) - u|) ∧
      (∀ k : ℤ, u = 10 * (k : ℚ) + 5 → 10 * (n : ℚ) = u + 5) := by
  have hfl : 0 ≤ ⌊u / 10 + 1 / 2⌋ := Int.floor_nonneg.mpr (by positivity)
  obtain ⟨n, hn⟩ := Int.eq_ofNat_of_zero_le hfl
  have hle : ((⌊u / 10 + 1 / 2⌋ : ℤ) : ℚ) ≤ u / 10 + 1 / 2 := Int.floor_le _
  have hlt : u / 10 + 1 / 2 < ((⌊u / 10 + 1 / 2⌋ : ℤ) : ℚ) + 1 := Int.lt_floor_add_one _
  rw [hn] at hle hlt
  simp only [Int.cast_natCast] at hle hlt
  refine ⟨n, ?_, ?_, ?_⟩
  · rw [hn]
    simp only [Int.cast_natCast]
    ring
  · intro m
    have h5 : |10 * (n : ℚ) - u| ≤ 5 := abs_le.mpr ⟨by linarith, by linarith⟩
    rcases lt_trichotomy m (n : ℤ) with hm | hm | hm
    · have h1 : (m : ℚ) + 1 ≤ (n : ℚ) := by exact_mod_cast hm
      exact h5.trans (le_abs.mpr (Or.inr (by linarith)))
    · subst hm
      simp
    · have h1 : (n : ℚ) + 1 ≤ (m : ℚ) := by exact_mod_cast hm
      exact h5.trans (le_abs.mpr (Or.inl (by linarith)))
  · intro k hk
    have h1 : ((k : ℤ) : ℚ) < (n : ℚ) := by
      have : (10 : ℚ) * k < 10 * n := by linarith
      linarith
    have h2 : (n : ℚ) < (k : ℚ) + 2 := by linarith
    have h3 : k < (n : ℤ) := by exact_mod_cast h1
    have h4 : (n : ℤ) < k + 2 := by exact_mod_cast h2
    have h5 : (n : ℤ) = k + 1 := by omega
    have h6 : (n : ℚ) = (k : ℚ) + 1 := by exact_mod_cast h5
    rw [hk, h6]
    ring

theorem apple_total :
    estimateTotal asciiLower "apple" Portion.medium.key = .ok (.num 95) := by
  rw [total_of_flags asciiLower "apple" .medium 95 false false false false
    (by decide) (by decide) (by decide) (by decide) (by decide)]
  norm_num

theorem apple_value :
    estimateCalories asciiLower "apple" Portion.medium.key = .ok (.num 100) := by
  rw [estimateCalories_of_total apple_total]
  norm_num [Int.floor_eq_iff]

theorem huge_portion_value : estimateCalories asciiLower "rice" "huge" = .ok .nan :=
  estimateCalories_other asciiLower "rice" (by decide)

/-! ## The claims about estimateCalories and calorieDatabase -/

/-- C1: for every food text and every portion size, estimateCalories equals
the reference definition evaluated on the lower-cased text (base value from
the matching keywords or from `meal`, times 1.3 for "fried", times 0.9 for
"grilled" or "steamed", plus 100 for "oil" or "butter", plus 150 for "salad"
with "dressing", rounded to the nearest multiple of 10), the arithmetic being
exact; and estimateCalories("plain rice", "medium") is 250. -/
theorem estimateCalories_refines_reference :
    (∀ (toLowerCase : String → String) (foodText : String) (p : Portion),
      estimateCalories toLowerCase foodText p.key =
        .ok (.num (referenceEstimate (toLowerCase foodText) p))) ∧
    estimateCalories asciiLower "plain rice" "medium" = .ok (.num 250) :=
  ⟨estimateCalories_eq, plain_rice_value⟩

/-- C2: for every food text and portion size the result is a non-negative
integer multiple of 10, no other multiple of 10 is nearer to the unrounded
total, and a total ending in 5 is rounded up; a total of 95 gives 100. -/
theorem estimateCalories_rounds_half_up :
    (∀ (toLowerCase : String → String) (foodText : String) (p : Portion),
      ∃ (u : ℚ) (n : ℕ),
        estimateTotal toLowerCase foodText p.key = .ok (.num u) ∧
        estimateCalories toLowerCase foodText p.key = .ok (.num (10 * (n : ℚ))) ∧
        (∀ m : ℤ, |10 * (n : ℚ) - u| ≤ |10 * (m : ℚ) - u|) ∧
        (∀ k : ℤ, u = 10 * (k : ℚ) + 5 → 10 * (n : ℚ) = u + 5)) ∧
    estimateTotal asciiLower "apple" "medium" = .ok (.num 95) ∧
    estimateCalories asciiLower "apple" "medium" = .ok (.num 100) := by
  refine ⟨?_, apple_total, apple_value⟩
  intro toLowerCase foodText p
  obtain ⟨n, hn, hnear, hhalf⟩ :=
    round10_spec (referenceTotal (toLowerCase foodText) p) (referenceTotal_nonneg _ p)
  refine ⟨_, n, estimateTotal_eq toLowerCase foodText p, ?_, hnear, hhalf⟩
  rw [estimateCalories_of_total (estimateTotal_eq toLowerCase foodText p), hn]

/-- C3, as the code has it: estimateCalories("fried chicken rice", "medium")
is 1430: the matching keywords are "rice" (250), "chicken rice" (600) and
"chicken" (250), the base value is 1100, and the factor 1.3 for "fried" gives
1430, already a multiple of 10. -/
theorem fried_chicken_rice_is_1430 :
    estimateCalories asciiLower "fried chicken rice" "medium" = .ok (.num 1430) ∧
    (matchedEntries (asciiLower "fried chicken rice")).map Prod.fst =
      ["rice", "chicken rice", "chicken"] ∧
    baseCalories (asciiLower "fried chicken rice") "medium" = .ok (.num 1100) := by
  refine ⟨fried_chicken_rice_value, by decide, ?_⟩
  have h := baseCalories_eq (asciiLower "fried chicken rice") .medium
  rw [show referenceBase (asciiLower "fried chicken rice") .medium = 1100 by decide] at h
  exact h

/-- C3 as stated fails: estimateCalories("fried chicken rice", "medium") is
not 650, and "chicken" and "rice" are not the only matching keywords. -/
theorem fried_chicken_rice_not_650 :
    estimateCalories asciiLower "fried chicken rice" "medium" ≠ .ok (.num 650) ∧
    (matchedEntries (asciiLower "fried chicken rice")).map Prod.fst ≠ ["rice", "chicken"] := by
  refine ⟨?_, by decide⟩
  rw [show estimateCalories asciiLower "fried chicken rice" "medium" = .ok (.num 1430)
    from fried_chicken_rice_value]
  intro h
  injection h with h
  injection h with h
  norm_num at h

/-- C4: when the lower-cased text contains no keyword of the table and none
of the modifier words, estimateCalories returns the fallback `meal[portion]`
(300, 500, 700); this covers the empty string and every white-space-only
string; estimateCalories("mystery dish", "large") is 700. -/
theorem estimateCalories_meal_fallback :
    (∀ (toLowerCase : String → String) (foodText : String) (p : Portion),
      (∀ entry ∈ calorieDatabase, includes (toLowerCase foodText) entry.1 = false) →
      (∀ w ∈ ["fried", "grilled", "steamed", "oil", "butter"],
        includes (toLowerCase foodText) w = false) →
      (includes (toLowerCase foodText) "salad" &&
        includes (toLowerCase foodText) "dressing") = false →
      estimateCalories toLowerCase foodText p.key = .ok (.num (mealFallback p))) ∧
    (∀ p : Portion, estimateCalories asciiLower "" p.key = .ok (.num (mealFallback p))) ∧
    (∀ (foodText : String) (p : Portion), (∀ c ∈ foodText.data, isWhiteSpace c = true) →
      estimateCalories asciiLower foodText p.key = .ok (.num (mealFallback p))) ∧
    (∀ p : Portion, mealDefault p.key = .ok (.num (mealFallback p))) ∧
    (mealFallback .small = 300 ∧ mealFallback .medium = 500 ∧ mealFallback .large = 700) ∧
    estimateCalories asciiLower "mystery dish" "large" = .ok (.num 700) := by
  refine ⟨estimateCalories_fallback, ?_, estimateCalories_whiteSpace, ?_, ⟨rfl, rfl, rfl⟩,
    mystery_dish_value⟩
  · intro p
    exact estimateCalories_whiteSpace "" p (by simp)
  · intro p
    rw [mealDefault_key, lookup_meal]
    cases p <;> simp [tableValue, Portion.key, List.lookup, mealFallback]

/-- The general part of C4 at "mystery dish", large: no keyword and no
modifier word occurs, and the value is `meal.large`. -/
theorem estimateCalories_meal_fallback_witness :
    estimateCalories asciiLower "mystery dish" Portion.large.key =
      .ok (.num (mealFallback .large)) :=
  estimateCalories_meal_fallback.1 asciiLower "mystery dish" .large
    (by decide) (by decide) (by decide)

/-- C5: the running total is the base value times the factors (1.3 for
"fried", 0.9 for "grilled" or "steamed", both when both occur) plus the flat
additions (100 for "oil" or "butter", 150 for "salad" with "dressing"), which
are therefore not scaled; estimateCalories("grilled fish with oil", "small")
is 210, and a fried and grilled medium fish gives 200 * 1.3 * 0.9 = 234,
rounded to 230. -/
theorem estimateCalories_additions_after_factors :
    (∀ (toLowerCase : String → String) (foodText : String) (p : Portion),
      ∃ b : ℚ, baseCalories (toLowerCase foodText) p.key = .ok (.num b) ∧
        estimateTotal toLowerCase foodText p.key =
          .ok (.num (b
            * (if includes (toLowerCase foodText) "fried" then 1.3 else 1)
            * (if includes (toLowerCase foodText) "grilled" ||
                includes (toLowerCase foodText) "steamed" then 0.9 else 1)
            + (if includes (toLowerCase foodText) "oil" ||
                includes (toLowerCase foodText) "butter" then 100 else 0)
            + (if includes (toLowerCase foodText) "salad" &&
                includes (toLowerCase foodText) "dressing" then 150 else 0)))) ∧
    estimateCalories asciiLower "grilled fish with oil" "small" = .ok (.num 210) ∧
    estimateCalories asciiLower "fried and grilled fish" "medium" = .ok (.num 230) :=
  ⟨fun toLowerCase foodText p =>
      ⟨_, baseCalories_eq (toLowerCase foodText) p, estimateTotal_formula toLowerCase foodText p⟩,
    grilled_fish_oil_value, fried_grilled_fish_value⟩

/-- C6, as the code has it: for every food text and every portion value other
than small, medium and large, estimateCalories raises no error and returns
NaN. -/
theorem estimateCalories_unknown_portion (toLowerCase : String → String)
    (foodText portion : String)
    (h : portion ≠ "small" ∧ portion ≠ "medium" ∧ portion ≠ "large") :
    estimateCalories toLowerCase foodText portion = .ok .nan :=
  estimateCalories_other toLowerCase foodText h

/-- C6 at the text "rice" and the portion "huge". -/
theorem estimateCalories_unknown_portion_witness :
    ("huge" ≠ "small" ∧ "huge" ≠ "medium" ∧ "huge" ≠ "large") ∧
    estimateCalories asciiLower "rice" "huge" = .ok .nan :=
  ⟨by decide, estimateCalories_unknown_portion asciiLower "rice" "huge" (by decide)⟩

/-- C6 as stated fails: with the portion "huge", which is none of the three
sizes, estimateCalories("rice", "huge") does not end in an InvalidArgument
error: it returns the value NaN. -/
theorem estimateCalories_huge_no_error :
    ("huge" ≠ "small" ∧ "huge" ≠ "medium" ∧ "huge" ≠ "large") ∧
    estimateCalories asciiLower "rice" "huge" ≠ .error .invalidArgument ∧
    estimateCalories asciiLower "rice" "huge" = .ok .nan := by
  refine ⟨by decide, ?_, huge_portion_value⟩
  rw [huge_portion_value]
  intro h
  cases h

/-- C7: every entry of calorieDatabase has exactly the three properties
small, medium and large, each a positive integer, and the table has the key
"meal"; no key occurs twice. -/
theorem calorieDatabase_wellFormed :
    (∀ entry ∈ calorieDatabase,
      entry.2.map Prod.fst = ["small", "medium", "large"] ∧ ∀ kv ∈ entry.2, 0 < kv.2) ∧
    "meal" ∈ calorieDatabase.map Prod.fst ∧
    (calorieDatabase.map Prod.fst).Nodup := by
  decide

/-! ## The Date model: years, months and days of the month -/

theorem DayFromYear_succ (y : Int) : DayFromYear (y + 1) = DayFromYear y + DaysInYear y := by
  unfold DayFromYear DaysInYear
  split_ifs <;> omega

theorem DaysInYear_pos (y : Int) : 365 ≤ DaysInYear y ∧ DaysInYear y ≤ 366 := by
  unfold DaysInYear
  split_ifs <;> omega

theorem DayFromYear_lt_succ (y : Int) : DayFromYear y < DayFromYear (y + 1) := by
  have := DaysInYear_pos y
  rw [DayFromYear_succ]
  omega

theorem DayFromYear_strictMono : StrictMono DayFromYear :=
  strictMono_int_of_lt_succ DayFromYear_lt_succ

theorem YearFromDay_spec (d : Int) :
    DayFromYear (YearFromDay d) ≤ d ∧ d < DayFromYear (YearFromDay d + 1) := by
  unfold YearFromDay
  simp only
  split_ifs with h1 h2
  · rw [sub_add_cancel]
    refine ⟨?_, h1⟩
    unfold DayFromYear at *
    omega
  · refine ⟨h2, ?_⟩
    unfold DayFromYear at *
    omega
  · exact ⟨not_lt.mp h1, not_le.mp h2⟩

theorem YearFromDay_unique (d y : Int) (h1 : DayFromYear y ≤ d) (h2 : d < DayFromYear (y + 1)) :
    YearFromDay d = y := by
  obtain ⟨h3, h4⟩ := YearFromDay_spec d
  have a : y < YearFromDay d + 1 := DayFromYear_strictMono.lt_iff_lt.mp (lt_of_le_of_lt h1 h4)
  have b : YearFromDay d < y + 1 := DayFromYear_strictMono.lt_iff_lt.mp (lt_of_le_of_lt h3 h2)
  omega

theorem leapDay_cases (y : Int) :
    (leapDay y = 0 ∧ DaysInYear y = 365) ∨ (leapDay y = 1 ∧ DaysInYear y = 366) := by
  have := DaysInYear_pos y
  unfold leapDay
  split_ifs with h
  · exact Or.inr ⟨rfl, h⟩
  · exact Or.inl ⟨rfl, by omega⟩

/-- The day `k` places after the first of month `mn` of year `y` has year `y`,
month `mn` and day of the month `k + 1`. -/
theorem civil_of_day (y mn k : Int) (hmn : 0 ≤ mn ∧ mn ≤ 11)
    (hk : 0 ≤ k ∧ k < monthLength y mn) :
    YearFromDay (DayFromYear y + monthStart mn (leapDay y) + k) = y ∧
    MonthFromDay (DayFromYear y + monthStart mn (leapDay y) + k) = mn ∧
    DateFromDay (DayFromYear y + monthStart mn (leapDay y) + k) = k + 1 := by
  obtain ⟨h0, h11⟩ := hmn
  have hy : YearFromDay (DayFromYear y + monthStart mn (leapDay y) + k) = y := by
    apply YearFromDay_unique
    · rcases leapDay_cases y with ⟨hl, _⟩ | ⟨hl, _⟩ <;>
        interval_cases mn <;> simp only [monthStart, monthLength, hl] at hk ⊢ <;> omega
    · rw [DayFromYear_succ]
      rcases leapDay_cases y with ⟨hl, hd⟩ | ⟨hl, hd⟩ <;>
        interval_cases mn <;> simp only [monthStart, monthLength, hl, hd] at hk ⊢ <;> omega
  have hw : DayWithinYear (DayFromYear y + monthStart mn (leapDay y) + k) =
      monthStart mn (leapDay y) + k := by
    unfold DayWithinYear
    rw [hy]
    ring
  have hl : InLeapYear (DayFromYear y + monthStart mn (leapDay y) + k) = leapDay y := by
    unfold InLeapYear
    rw [hy]
  have hm : MonthFromDay (DayFromYear y + monthStart mn (leapDay y) + k) = mn := by
    unfold MonthFromDay
    simp only [hw, hl]
    rcases leapDay_cases y with ⟨hl, hd⟩ | ⟨hl, hd⟩ <;>
      interval_cases mn <;> simp only [monthStart, monthLength, hl, hd] at hk ⊢ <;>
      repeat (first | rfl | rw [if_pos (by omega)] | rw [if_neg (by omega)])
  refine ⟨hy, hm, ?_⟩
  unfold DateFromDay
  simp only [hw, hl, hm]
  interval_cases mn <;> simp only [monthStart] <;> omega

theorem WeekDay_range (d : Int) : 0 ≤ WeekDay d ∧ WeekDay d ≤ 6 := by
  unfold WeekDay
  omega

theorem monthLength_range (y mn : Int) : 28 ≤ monthLength y mn ∧ monthLength y mn ≤ 31 := by
  unfold monthLength
  rcases leapDay_cases y with ⟨hl, _⟩ | ⟨hl, _⟩ <;> split <;> omega

/-- Year, month and day of the month of `MakeDay year month (k + 1)` when
`k + 1` is a day of that month. -/
theorem MakeDay_civil (year month k : Int)
    (hk : 0 ≤ k ∧ k < monthLength (year + month / 12) (month % 12)) :
    YearFromDay (MakeDay year month (k + 1)) = year + month / 12 ∧
    MonthFromDay (MakeDay year month (k + 1)) = month % 12 ∧
    DateFromDay (MakeDay year month (k + 1)) = k + 1 := by
  have h := civil_of_day (year + month / 12) (month % 12) k ⟨by omega, by omega⟩ hk
  have e : MakeDay year month (k + 1) =
      DayFromYear (year + month / 12) + monthStart (month % 12) (leapDay (year + month / 12))
        + k := by
    unfold MakeDay
    ring
  rw [e]
  exact h

theorem monthStart_succ (mn l : Int) (h0 : 0 ≤ mn) (h10 : mn ≤ 10) (y : Int)
    (hl : l = leapDay y) : monthStart (mn + 1) l = monthStart mn l + monthLength y mn := by
  subst hl
  interval_cases mn <;> simp only [monthStart, monthLength, Int.reduceAdd] <;> omega

/-- The first of the next month comes `monthLength` days after the first of
the month. -/
theorem MakeDay_next_month (year month : Int) :
    MakeDay year (month + 1) 1 =
      MakeDay year month 1 + monthLength (year + month / 12) (month % 12) := by
  unfold MakeDay
  simp only
  by_cases h : month % 12 = 11
  · have e1 : (month + 1) / 12 = month / 12 + 1 := by omega
    have e2 : (month + 1) % 12 = 0 := by omega
    rw [e1, e2, h, ← add_assoc, DayFromYear_succ]
    rcases leapDay_cases (year + month / 12) with ⟨hl, hd⟩ | ⟨hl, hd⟩ <;>
      simp only [monthStart, monthLength, hl, hd] <;> omega
  · have e1 : (month + 1) / 12 = month / 12 := by omega
    have e2 : (month + 1) % 12 = month % 12 + 1 := by omega
    rw [e1, e2, monthStart_succ (month % 12) _ (by omega) (by omega) (year + month / 12) rfl]
    ring

/-- Day 0 of the next month is the last day of the month. -/
theorem DateFromDay_MakeDay_zero (year month : Int) :
    DateFromDay (MakeDay year (month + 1) 0) = monthLength (year + month / 12) (month % 12) := by
  have hr := monthLength_range (year + month / 12) (month % 12)
  have e : MakeDay year (month + 1) 0 =
      MakeDay year month (monthLength (year + month / 12) (month % 12) - 1 + 1) := by
    have h1 : MakeDay year (month + 1) 0 = MakeDay year (month + 1) 1 - 1 := by
      unfold MakeDay
      ring
    have h2 : ∀ k, MakeDay year month k = MakeDay year month 1 + k - 1 := by
      intro k
      unfold MakeDay
      ring
    rw [h1, MakeDay_next_month, h2 (_ - 1 + 1)]
    ring
  rw [e, (MakeDay_civil year month _ ⟨by omega, by omega⟩).2.2]
  ring

theorem TimeClip_eq_some {d x : Int} (h : TimeClip d = some x) :
    x = d ∧ -100000000 ≤ d ∧ d ≤ 100000000 := by
  unfold TimeClip at h
  split_ifs at h with hr
  exact ⟨(Option.some.inj h).symm, hr⟩

theorem TimeClip_of_range {d : Int} (h : -100000000 ≤ d ∧ d ≤ 100000000) :
    TimeClip d = some d := by
  unfold TimeClip
  rw [if_pos h]

theorem leapDay_range (y : Int) : 0 ≤ leapDay y ∧ leapDay y ≤ 1 := by
  unfold leapDay
  split_ifs <;> omega

theorem monthStart_range (mn l : Int) (hl : 0 ≤ l ∧ l ≤ 1) :
    0 ≤ monthStart mn l ∧ monthStart mn l ≤ 335 := by
  unfold monthStart
  split <;> omega

/-- Day 0 and day 1 of every month of the years -271820 to 275759, and of the
January after them, lie within the range of time values. -/
theorem MakeDay_in_range (yr month day : Int) (hy : -271821 < yr ∧ yr < 275760)
    (hm : 0 ≤ month ∧ month ≤ 12) (hd : 0 ≤ day ∧ day ≤ 1) :
    -100000000 ≤ MakeDay yr month day ∧ MakeDay yr month day ≤ 100000000 := by
  have hs := monthStart_range (month % 12) (leapDay (yr + month / 12))
    (leapDay_range (yr + month / 12))
  unfold MakeDay
  simp only
  by_cases h12 : month = 12
  · subst h12
    have e : monthStart (12 % 12) (leapDay (yr + 12 / 12)) = 0 := rfl
    rw [e]
    unfold DayFromYear
    omega
  · have e1 : month / 12 = 0 := by omega
    rw [e1] at hs ⊢
    rw [add_zero] at hs ⊢
    unfold DayFromYear
    omega

/-- The dates that renderCalendar builds for a month of the years -271820 to
275759 are valid. -/
theorem newDate_of_year (year month day : Int) (hy : -271821 < year ∧ year < 275760)
    (hm : 0 ≤ month ∧ month ≤ 12) (hd : 0 ≤ day ∧ day ≤ 1) :
    newDate year month day =
      some (MakeDay (if 0 ≤ year ∧ year ≤ 99 then 1900 + year else year) month day) := by
  unfold newDate
  exact TimeClip_of_range (MakeDay_in_range _ month day (by split_ifs <;> omega) hm hd)

theorem newDate_eq_some {year month day d : Int} (h : newDate year month day = some d) :
    d = MakeDay (if 0 ≤ year ∧ year ≤ 99 then 1900 + year else year) month day :=
  (TimeClip_eq_some h).1

theorem firstDay_range (year month first : Int) (h : firstDay year month = some first) :
    0 ≤ first ∧ first ≤ 6 := by
  unfold firstDay at h
  rw [Option.map_eq_some'] at h
  obtain ⟨d, _, rfl⟩ := h
  exact WeekDay_range d

/-- When `daysInMonth` is a number, it is the length of a month. -/
theorem daysInMonth_eq_some (year month days : Int) (h : daysInMonth year month = some days) :
    days = monthLength ((if 0 ≤ year ∧ year ≤ 99 then 1900 + year else year) + month / 12)
      (month % 12) := by
  unfold daysInMonth at h
  rw [Option.map_eq_some'] at h
  obtain ⟨d, hd, rfl⟩ := h
  rw [newDate_eq_some hd]
  exact DateFromDay_MakeDay_zero _ _

theorem daysInMonth_range (year month days : Int) (h : daysInMonth year month = some days) :
    28 ≤ days ∧ days ≤ 31 := by
  rw [daysInMonth_eq_some year month days h]
  exact monthLength_range _ _

theorem daysInPrevMonth_range (year month prev : Int)
    (h : daysInPrevMonth year month = some prev) : 28 ≤ prev ∧ prev ≤ 31 := by
  unfold daysInPrevMonth at h
  rw [Option.map_eq_some'] at h
  obtain ⟨d, hd, rfl⟩ := h
  rw [newDate_eq_some hd]
  have h2 := DateFromDay_MakeDay_zero (if 0 ≤ year ∧ year ≤ 99 then 1900 + year else year)
    (month - 1)
  rw [sub_add_cancel] at h2
  unfold getDate
  rw [h2]
  exact monthLength_range _ _

/-- The three constants of renderCalendar are numbers for every month of the
years -271820 to 275759. -/
theorem constants_of_year (year month : Int) (hy : -271821 < year ∧ year < 275760)
    (hm : 0 ≤ month ∧ month ≤ 11) :
    ∃ (first days prev : Int), firstDay year month = some first ∧
      daysInMonth year month = some days ∧ daysInPrevMonth year month = some prev := by
  have h1 := newDate_of_year year month 1 hy ⟨by omega, by omega⟩ ⟨by omega, by omega⟩
  have h2 := newDate_of_year year (month + 1) 0 hy ⟨by omega, by omega⟩ ⟨by omega, by omega⟩
  have h3 := newDate_of_year year month 0 hy ⟨by omega, by omega⟩ ⟨by omega, by omega⟩
  unfold firstDay daysInMonth daysInPrevMonth
  rw [h1, h2, h3]
  exact ⟨_, _, _, rfl, rfl, rfl⟩

/-! ## The grid of renderCalendar -/

theorem prevMonthCells_length (events : List Event) (now year month : Int) :
    (prevMonthCells events now year month).length = ((firstDay year month).getD 0).toNat := by
  unfold prevMonthCells
  cases firstDay year month <;> simp

theorem currentMonthCells_length (events : List Event) (now year month : Int) :
    (currentMonthCells events now year month).length =
      ((daysInMonth year month).getD 0).toNat := by
  unfold currentMonthCells
  cases daysInMonth year month <;> simp

theorem nextMonthCells_length (events : List Event) (now year month : Int) (totalCells : Nat) :
    (nextMonthCells events now year month totalCells).length =
      ((42 : Int) - (totalCells : Int)).toNat := by
  simp [nextMonthCells]

theorem firstDay_getD_range (year month : Int) :
    0 ≤ (firstDay year month).getD 0 ∧ (firstDay year month).getD 0 ≤ 6 := by
  cases h : firstDay year month with
  | none => simp
  | some first => exact firstDay_range year month first h

theorem daysInMonth_getD_range (year month : Int) :
    0 ≤ (daysInMonth year month).getD 0 ∧ (daysInMonth year month).getD 0 ≤ 31 := by
  cases h : daysInMonth year month with
  | none => simp
  | some days =>
    have := daysInMonth_range year month days h
    exact ⟨by simp only [Option.getD_some]; omega, this.2⟩

/-- The first loop, read in ascending order of the day number. -/
theorem prevMonthCells_eq (events : List Event) (now year month first : Int)
    (hf : firstDay year month = some first) :
    prevMonthCells events now year month =
      (List.range first.toNat).map (fun (j : Nat) =>
        createDayElement events now
          ((daysInPrevMonth year month).map (fun prev => prev - first + 1 + (j : Int))) true year
          (month - 1)) := by
  have hr := firstDay_range year month first hf
  unfold prevMonthCells
  rw [hf]
  simp only
  rw [List.range_eq_range', List.reverse_range', List.map_map, ← List.range_eq_range']
  apply List.map_congr_left
  intro j hj
  rw [List.mem_range] at hj
  simp only [Function.comp]
  congr 1
  have : ((0 + first.toNat - 1 - j : Nat) : Int) = first - 1 - (j : Int) := by
    omega
  rw [this]
  cases daysInPrevMonth year month with
  | none => rfl
  | some prev =>
    simp only [Option.map_some']
    congr 1
    ring

theorem renderCalendar_length (events : List Event) (now year month : Int) :
    (renderCalendar events now year month).length = 42 := by
  have hf := firstDay_getD_range year month
  have hd := daysInMonth_getD_range year month
  unfold renderCalendar
  simp only [List.length_append, prevMonthCells_length, currentMonthCells_length,
    nextMonthCells_length]
  omega

/-- The grid as the list of (day number, other-month flag) of its cells, when
the three constants are numbers. -/
theorem renderCalendar_days (events : List Event) (now year month first days prev : Int)
    (hf : firstDay year month = some first) (hd : daysInMonth year month = some days)
    (hp : daysInPrevMonth year month = some prev) :
    (renderCalendar events now year month).map (fun c => (c.textContent, c.otherMonth)) =
      (List.range first.toNat).map (fun (j : Nat) =>
        (some (prev - first + 1 + (j : Int)), true)) ++
      (List.range days.toNat).map (fun (j : Nat) => (some ((j : Int) + 1), false)) ++
      (List.range (42 - first.toNat - days.toNat)).map
        (fun (j : Nat) => (some ((j : Int) + 1), true)) := by
  have hfr := firstDay_range year month first hf
  have hdr := daysInMonth_range year month days hd
  have hn : ((42 : Int) - ((first.toNat + days.toNat : Nat) : Int)).toNat =
      42 - first.toNat - days.toNat := by
    omega
  unfold renderCalendar
  simp only [List.length_append, prevMonthCells_length, currentMonthCells_length, hf, hd,
    Option.getD_some]
  rw [prevMonthCells_eq events now year month first hf, hp]
  unfold currentMonthCells nextMonthCells
  rw [hd, hn]
  simp only [List.map_append, List.map_map, Option.map_some']
  rfl

/-- The day number of every cell lies in 1..31 when the three constants are
numbers. -/
theorem renderCalendar_day_range (events : List Event) (now year month first days prev : Int)
    (hf : firstDay year month = some first) (hd : daysInMonth year month = some days)
    (hp : daysInPrevMonth year month = some prev) :
    ∀ c ∈ renderCalendar events now year month,
      ∃ day : Int, c.textContent = some day ∧ 1 ≤ day ∧ day ≤ 31 := by
  have hfr := firstDay_range year month first hf
  have hdr := daysInMonth_range year month days hd
  have hpr := daysInPrevMonth_range year month prev hp
  intro c hc
  have hc2 : (c.textContent, c.otherMonth) ∈
      (renderCalendar events now year month).map (fun c => (c.textContent, c.otherMonth)) :=
    List.mem_map_of_mem _ hc
  rw [renderCalendar_days events now year month first days prev hf hd hp] at hc2
  simp only [List.mem_append, List.mem_map, List.mem_range, Prod.mk.injEq] at hc2
  rcases hc2 with (⟨j, hj, he, _⟩ | ⟨j, hj, he, _⟩) | ⟨j, hj, he, _⟩
  · exact ⟨_, he.symm, by omega, by omega⟩
  · exact ⟨_, he.symm, by omega, by omega⟩
  · exact ⟨_, he.symm, by omega, by omega⟩

/-- Every cell of the grid is a `createDayElement` of the displayed year. -/
theorem renderCalendar_cell (events : List Event) (now year month : Int) :
    ∀ c ∈ renderCalendar events now year month,
      ∃ (day : Option Int) (o : Bool) (m : Int),
        c = createDayElement events now day o year m := by
  intro c hc
  unfold renderCalendar at hc
  simp only [List.mem_append] at hc
  rcases hc with (h | h) | h
  · unfold prevMonthCells at h
    split at h
    · simp at h
    · rw [List.mem_map] at h
      obtain ⟨i, _, rfl⟩ := h
      exact ⟨_, _, _, rfl⟩
  · unfold currentMonthCells at h
    split at h
    · simp at h
    · rw [List.mem_map] at h
      obtain ⟨k, _, rfl⟩ := h
      exact ⟨_, _, _, rfl⟩
  · unfold nextMonthCells at h
    rw [List.mem_map] at h
    obtain ⟨k, _, rfl⟩ := h
    exact ⟨_, _, _, rfl⟩

/-! ## The claims about renderCalendar -/

/-- C8, as the code has it: for every year and month the grid of
renderCalendar has exactly 42 cells, the number of next-month cells being 42
minus the number of cells written before them. Whenever firstDay and
daysInMonth are numbers, their sum is the number of cells written before, it
is at most 37 and so never exceeds 42, and the number of next-month cells is
42 minus that sum; and they are numbers for every month 0..11 of the years
-271820 to 275759. -/
theorem renderCalendar_has_42_cells (events : List Event) (now year month : Int) :
    (renderCalendar events now year month).length = 42 ∧
    (nextMonthCells events now year month
        (prevMonthCells events now year month ++
          currentMonthCells events now year month).length).length =
      42 - (prevMonthCells events now year month ++
        currentMonthCells events now year month).length ∧
    (∀ first days : Int, firstDay year month = some first → daysInMonth year month = some days →
      first + days ≤ 42 ∧ first + days ≤ 37 ∧
      (((prevMonthCells events now year month ++
          currentMonthCells events now year month).length : Nat) : Int) = first + days ∧
      (((nextMonthCells events now year month
          (prevMonthCells events now year month ++
            currentMonthCells events now year month).length).length : Nat) : Int) =
        42 - (first + days)) ∧
    ((-271821 < year ∧ year < 275760) → (0 ≤ month ∧ month ≤ 11) →
      ∃ first days : Int, firstDay year month = some first ∧
        daysInMonth year month = some days) := by
  have hf := firstDay_getD_range year month
  have hd := daysInMonth_getD_range year month
  refine ⟨renderCalendar_length events now year month, ?_, ?_, ?_⟩
  · rw [nextMonthCells_length, List.length_append, prevMonthCells_length,
      currentMonthCells_length]
    omega
  · intro first days h1 h2
    have hfr := firstDay_range year month first h1
    have hdr := daysInMonth_range year month days h2
    rw [nextMonthCells_length, List.length_append, prevMonthCells_length,
      currentMonthCells_length, h1, h2]
    simp only [Option.getD_some]
    omega
  · intro hy hm
    obtain ⟨first, days, _, h1, h2, _⟩ := constants_of_year year month hy hm
    exact ⟨first, days, h1, h2⟩

/-- C8 on the grid of February 2024: the month begins on a Thursday (4) and
has 29 days, so 33 cells are written before the 9 next-month cells. -/
theorem renderCalendar_has_42_cells_witness :
    (firstDay 2024 1 = some 4 ∧ daysInMonth 2024 1 = some 29) ∧
    ((4 : Int) + 29 ≤ 42 ∧ (4 : Int) + 29 ≤ 37 ∧
      (((prevMonthCells [] 0 2024 1 ++ currentMonthCells [] 0 2024 1).length : Nat) : Int) =
        4 + 29 ∧
      (((nextMonthCells [] 0 2024 1
          (prevMonthCells [] 0 2024 1 ++ currentMonthCells [] 0 2024 1).length).length
          : Nat) : Int) = 42 - (4 + 29)) :=
  ⟨by decide, (renderCalendar_has_42_cells [] 0 2024 1).2.2.1 4 29 (by decide) (by decide)⟩

/-- C8 as stated fails in September 275760, the last month a Date reaches:
the last day of the month is past the last time value, so `daysInMonth` is
`NaN` and there is no sum firstDay + daysInMonth; the month begins on a Monday
(1), one previous-month cell and no cell of the month are written, and 41
next-month cells follow. -/
theorem renderCalendar_no_sum_in_september_275760 :
    firstDay 275760 8 = some 1 ∧ daysInMonth 275760 8 = none ∧
    (prevMonthCells [] 0 275760 8).length = 1 ∧
    (currentMonthCells [] 0 275760 8).length = 0 ∧
    (nextMonthCells [] 0 275760 8
      (prevMonthCells [] 0 275760 8 ++ currentMonthCells [] 0 275760 8).length).length = 41 ∧
    (renderCalendar [] 0 275760 8).length = 42 := by
  decide

/-- C9, as the code has it: whenever the three constants firstDay, daysInMonth
and daysInPrevMonth are numbers, the grid is, in order, firstDay cells numbered
daysInPrevMonth - firstDay + 1 up to daysInPrevMonth, each flagged
other-month; then daysInMonth cells numbered 1 up to daysInMonth, not flagged;
then cells numbered 1, 2, ... flagged other-month; firstDay is in 0..6, both
month lengths are in 28..31, and every day number lies in 1..31. The three
constants are numbers for every month 0..11 of the years -271820 to 275759. -/
theorem renderCalendar_layout :
    (∀ (events : List Event) (now year month first days prev : Int),
      firstDay year month = some first → daysInMonth year month = some days →
      daysInPrevMonth year month = some prev →
      (renderCalendar events now year month).map (fun c => (c.textContent, c.otherMonth)) =
        (List.range first.toNat).map (fun (j : Nat) =>
          (some (prev - first + 1 + (j : Int)), true)) ++
        (List.range days.toNat).map (fun (j : Nat) => (some ((j : Int) + 1), false)) ++
        (List.range (42 - first.toNat - days.toNat)).map
          (fun (j : Nat) => (some ((j : Int) + 1), true)) ∧
      (0 ≤ first ∧ first ≤ 6) ∧ (28 ≤ days ∧ days ≤ 31) ∧ (28 ≤ prev ∧ prev ≤ 31) ∧
      ∀ c ∈ renderCalendar events now year month,
        ∃ day : Int, c.textContent = some day ∧ 1 ≤ day ∧ day ≤ 31) ∧
    (∀ year month : Int, (-271821 < year ∧ year < 275760) → (0 ≤ month ∧ month ≤ 11) →
      ∃ (first days prev : Int), firstDay year month = some first ∧
        daysInMonth year month = some days ∧ daysInPrevMonth year month = some prev) :=
  ⟨fun events now year month first days prev hf hd hp =>
    ⟨renderCalendar_days events now year month first days prev hf hd hp,
      firstDay_range year month first hf, daysInMonth_range year month days hd,
      daysInPrevMonth_range year month prev hp,
      renderCalendar_day_range events now year month first days prev hf hd hp⟩,
    constants_of_year⟩

/-- C9 on the grid of February 2024: 4 cells numbered 28 to 31, the 29 cells
of the month, and 9 cells numbered 1 to 9. -/
theorem renderCalendar_layout_witness :
    (firstDay 2024 1 = some 4 ∧ daysInMonth 2024 1 = some 29 ∧
      daysInPrevMonth 2024 1 = some 31) ∧
    (renderCalendar [] 0 2024 1).map (fun c => (c.textContent, c.otherMonth)) =
      (List.range (4 : Int).toNat).map (fun (j : Nat) =>
        (some ((31 : Int) - 4 + 1 + (j : Int)), true)) ++
      (List.range (29 : Int).toNat).map (fun (j : Nat) => (some ((j : Int) + 1), false)) ++
      (List.range (42 - (4 : Int).toNat - (29 : Int).toNat)).map
        (fun (j : Nat) => (some ((j : Int) + 1), true)) :=
  ⟨by decide,
    (renderCalendar_layout.1 [] 0 2024 1 4 29 31 (by decide) (by decide) (by decide)).1⟩

/-- C9 as stated fails in September 275760: `daysInMonth` is `NaN`, so after
the one previous-month cell (31 August) no cell of the displayed month is
written, and the 41 cells that follow, all flagged other-month, are numbered
1 to 41, past 31. -/
theorem renderCalendar_september_275760 :
    daysInMonth 275760 8 = none ∧
    (renderCalendar [] 0 275760 8).map (fun c => (c.textContent, c.otherMonth)) =
      (some 31, true) :: (List.range 41).map (fun (j : Nat) => (some ((j : Int) + 1), true)) := by
  decide

/-- C10 at January and December 2024: the one previous-month cell of the
January grid, which is 31 December 2023, is dated "2024-00-31", and the last
next-month cell of the December grid, which is 11 January 2025, is dated
"2024-13-11"; the first cell of the February grid, 28 January, is dated
correctly. -/
theorem january_grid_first_cell_month_00 :
    (firstDay 2024 0 = some 1 ∧ daysInPrevMonth 2024 0 = some 31) ∧
    ((renderCalendar [] 0 2024 0).map (fun c => c.date)).head? = some "2024-00-31" ∧
    ((renderCalendar [] 0 2024 11).map (fun c => c.date)).getLast? = some "2024-13-11" ∧
    ((renderCalendar [] 0 2024 1).map (fun c => c.date)).head? = some "2024-01-28" := by
  decide

/-! ## saveEvent and deleteEvent -/

/-- With an empty required field saveEvent shows the error notification and
returns the state as it was. -/
theorem saveEvent_invalid (s : ScheduleState) (form : EventForm) (now : Int) (nowIso : String)
    (h : trim form.title = "" ∨ form.date = "" ∨ form.category = "" ∨ form.priority = "") :
    saveEvent s form now nowIso =
      .ok (s, { message := "Please fill in all required fields", type := "error" }) := by
  unfold saveEvent
  simp only [if_pos h]

/-- With a falsy `editingEventId` and a valid form, saveEvent appends the new
event, whose id is the clock value. -/
theorem saveEvent_new (s : ScheduleState) (form : EventForm) (now : Int) (nowIso : String)
    (hv : ¬ (trim form.title = "" ∨ form.date = "" ∨ form.category = "" ∨ form.priority = ""))
    (he : isTruthy s.editingEventId = false) :
    saveEvent s form now nowIso =
      .ok ({ events := s.events ++
              [{ id := now, title := trim form.title, date := form.date, time := form.time,
                 description := trim form.description, category := form.category,
                 priority := form.priority, createdAt := nowIso }],
             editingEventId := none },
        { message := "Event added successfully!", type := "success" }) := by
  unfold saveEvent
  simp [if_neg hv, he]

/-- The lookups `find` and `findIndex` of an id that occurs in the list: both
land on the first event with that id, and writing an event of the same id
there keeps the list of ids. -/
theorem find_existing (l : List Event) (id : Int) (h : ∃ e ∈ l, e.id = id) :
    ∃ (i : Nat) (old : Event),
      l.find? (fun e => e.id == id) = some old ∧
      l.findIdx? (fun e => e.id == id) = some i ∧
      l[i]? = some old ∧ old.id = id ∧
      ∀ event : Event, event.id = id →
        (l.set i event).map (fun e => e.id) = l.map (fun e => e.id) := by
  induction l with
  | nil => simp at h
  | cons x xs ih =>
    by_cases hx : x.id = id
    · refine ⟨0, x, ?_, ?_, by simp, hx, ?_⟩
      · simp [List.find?_cons, hx]
      · simp [List.findIdx?_cons, hx]
      · intro event hid
        simp [hid, hx]
    · have h2 : ∃ e ∈ xs, e.id = id := by
        obtain ⟨e, he, hei⟩ := h
        rcases List.mem_cons.mp he with rfl | he
        · exact absurd hei hx
        · exact ⟨e, he, hei⟩
      obtain ⟨i, old, h1, h3, h4, h5, h6⟩ := ih h2
      refine ⟨i + 1, old, ?_, ?_, ?_, h5, ?_⟩
      · simp [List.find?_cons, hx, h1]
      · simp [List.findIdx?_cons, List.findIdx?_succ, hx, h3]
      · simpa using h4
      · intro event hid
        simp [h6 event hid]

/-- With a truthy `editingEventId` that is the id of an event of the
collection, and a valid form, saveEvent writes the new event at the position
of the first event with that id. -/
theorem saveEvent_edit (s : ScheduleState) (form : EventForm) (now : Int) (nowIso : String)
    (id : Int)
    (hv : ¬ (trim form.title = "" ∨ form.date = "" ∨ form.category = "" ∨ form.priority = ""))
    (he : s.editingEventId = some id) (h0 : id ≠ 0) (hex : ∃ e ∈ s.events, e.id = id) :
    ∃ (i : Nat) (old : Event),
      s.events[i]? = some old ∧ old.id = id ∧
      saveEvent s form now nowIso =
        .ok ({ events := s.events.set i
                { id := id, title := trim form.title, date := form.date, time := form.time,
                  description := trim form.description, category := form.category,
                  priority := form.priority, createdAt := old.createdAt },
               editingEventId := none },
          { message := "Event updated successfully!", type := "success" }) ∧
      (s.events.set i
          { id := id, title := trim form.title, date := form.date, time := form.time,
            description := trim form.description, category := form.category,
            priority := form.priority, createdAt := old.createdAt }).map (fun e => e.id) =
        s.events.map (fun e => e.id) := by
  have ht : isTruthy (some id) = true := by
    simpa [isTruthy] using h0
  obtain ⟨i, old, h1, h2, h3, h4, h5⟩ := find_existing s.events id hex
  refine ⟨i, old, h3, h4, ?_, h5 _ rfl⟩
  unfold saveEvent
  simp only [if_neg hv, he, ht, if_true, Option.getD_some, h1, h2]

/-- A saveEvent that returns keeps the ids pairwise distinct, when the clock
value of a new event is not yet an id. -/
theorem saveEvent_nodup (s s2 : ScheduleState) (form : EventForm) (now : Int) (nowIso : String)
    (note : Notification)
    (hn : (s.events.map (fun e => e.id)).Nodup)
    (hclock : isTruthy s.editingEventId = false → ∀ e ∈ s.events, e.id ≠ now)
    (hs : saveEvent s form now nowIso = .ok (s2, note)) :
    (s2.events.map (fun e => e.id)).Nodup := by
  by_cases hv : trim form.title = "" ∨ form.date = "" ∨ form.category = "" ∨ form.priority = ""
  · rw [saveEvent_invalid s form now nowIso hv] at hs
    injection hs with hs
    injection hs with hs1 hs2
    rw [← hs1]
    exact hn
  · cases ht : isTruthy s.editingEventId
    · rw [saveEvent_new s form now nowIso hv ht] at hs
      injection hs with hs
      injection hs with hs1 hs2
      rw [← hs1]
      simp only [List.map_append, List.map_cons, List.map_nil]
      rw [List.nodup_append]
      refine ⟨hn, List.nodup_singleton _, ?_⟩
      intro x hx hx2
      rw [List.mem_singleton] at hx2
      rw [List.mem_map] at hx
      obtain ⟨e, he, hei⟩ := hx
      exact hclock ht e he (hei.trans hx2)
    · obtain ⟨id, hid⟩ : ∃ id, s.editingEventId = some id := by
        cases hopt : s.editingEventId with
        | none => rw [hopt] at ht; simp [isTruthy] at ht
        | some id => exact ⟨id, rfl⟩
      have h0 : id ≠ 0 := by
        rw [hid] at ht
        simpa [isTruthy] using ht
      by_cases hex : ∃ e ∈ s.events, e.id = id
      · obtain ⟨i, old, _, _, h3, h4⟩ := saveEvent_edit s form now nowIso id hv hid h0 hex
        rw [h3] at hs
        injection hs with hs
        injection hs with hs1 hs2
        rw [← hs1]
        simp only
        rw [h4]
        exact hn
      · exfalso
        have hf : s.events.find? (fun e => e.id == id) = none := by
          rw [List.find?_eq_none]
          intro e he hei
          exact hex ⟨e, he, by simpa using hei⟩
        rw [hid] at ht
        unfold saveEvent at hs
        simp only [if_neg hv, hid, ht, if_true, Option.getD_some, hf] at hs
        cases hs

/-- A deleteEvent keeps the ids pairwise distinct. -/
theorem deleteEvent_nodup (s : ScheduleState) (eventId : Int) (confirmed : Bool)
    (hn : (s.events.map (fun e => e.id)).Nodup) :
    ((deleteEvent s eventId confirmed).1.events.map (fun e => e.id)).Nodup := by
  unfold deleteEvent
  cases confirmed
  · exact hn
  · simp only [if_true]
    exact (List.filter_sublist _).map _ |>.nodup hn

/-- The events of a list that have the id `eventId`, when ids are distinct
and the id occurs: there is exactly one. -/
theorem length_filter_ne_of_nodup (l : List Event) (eventId : Int)
    (hn : (l.map (fun e => e.id)).Nodup) (h : ∃ e ∈ l, e.id = eventId) :
    (l.filter (fun e => e.id != eventId)).length + 1 = l.length := by
  induction l with
  | nil => simp at h
  | cons x xs ih =>
    rw [List.map_cons, List.nodup_cons] at hn
    by_cases hx : x.id = eventId
    · have hall : ∀ a ∈ xs, (a.id != eventId) = true := by
        intro a ha
        have : a.id ≠ x.id := fun hax => hn.1 (List.mem_map.mpr ⟨a, ha, hax⟩)
        simpa [← hx] using this
      have hxs : xs.filter (fun e => e.id != eventId) = xs := List.filter_eq_self.mpr hall
      simp [List.filter_cons, hx, hxs]
    · have h2 : ∃ e ∈ xs, e.id = eventId := by
        obtain ⟨e, he, hei⟩ := h
        rcases List.mem_cons.mp he with rfl | he
        · exact absurd hei hx
        · exact ⟨e, he, hei⟩
      have := ih hn.2 h2
      simp [List.filter_cons, hx]
      omega

/-- Two positions of a list with distinct ids that hold the same id are the
same position. -/
theorem index_unique_of_nodup (l : List Event) (hn : (l.map (fun e => e.id)).Nodup)
    (i j : Nat) (a b : Event) (hi : l[i]? = some a) (hj : l[j]? = some b) (hab : a.id = b.id) :
    j = i := by
  by_contra hne
  have h1 : (l.map (fun e => e.id))[i]? = some a.id := by simp [List.getElem?_map, hi]
  have h2 : (l.map (fun e => e.id))[j]? = some a.id := by simp [List.getElem?_map, hj, hab]
  have hlt : ∀ k (c : Event), l[k]? = some c → k < (l.map (fun e => e.id)).length := by
    intro k c hk
    obtain ⟨h, _⟩ := List.getElem?_eq_some.mp hk
    simpa using h
  rcases Nat.lt_or_gt_of_ne hne with h | h
  · exact List.nodup_iff_getElem?_ne_getElem?.mp hn j i h (hlt i a hi) (h2.trans h1.symm)
  · exact List.nodup_iff_getElem?_ne_getElem?.mp hn i j h (hlt j b hj) (h1.trans h2.symm)

/-- The test `if (editingEventId)` reads the id 0 as no id: with the one
event of id 0 in the collection, `editingEventId` 0 and a valid form,
saveEvent appends a second event, with the clock value 7 as its id. -/
theorem saveEvent_id_zero_appends :
    saveEvent (ScheduleState.mk [sampleEvent 0 "2024-01-01" ""] (some 0)) sampleForm 7
        "1970-01-01T00:00:00.007Z" =
      .ok (ScheduleState.mk
          [sampleEvent 0 "2024-01-01" "",
            Event.mk 7 "Dentist" "2024-03-05" "09:30" "" "health" "high"
              "1970-01-01T00:00:00.007Z"]
          none,
        Notification.mk "Event added successfully!" "success") := by
  rfl

/-! ## Sorting -/

theorem compareEvents_same_key (tz : Int) (a b : Event) (hd : a.date = b.date)
    (ht : a.time = b.time) : compareEvents tz a b ≤ 0 := by
  unfold compareEvents eventDate
  rw [hd, ht]
  cases parseDate tz (b.date ++ (if b.time ≠ "" then "T" ++ b.time else "")) with
  | none => exact le_refl 0
  | some x => simp

theorem sortWith_perm {α : Type} (compare : α → α → Int) (l : List α) :
    (sortWith compare l).Perm l :=
  List.perm_insertionSort _ l

/-- Stability of the sort on a class of elements that the comparator does
not separate. -/
theorem sortWith_filter {α : Type} (compare : α → α → Int) (p : α → Bool) (l : List α)
    (hp : ∀ a b, p a = true → p b = true → compare a b ≤ 0) :
    (sortWith compare l).filter p = l.filter p := by
  have hsub : List.Sublist (l.filter p) (sortWith compare l) := by
    apply List.sublist_insertionSort _ (List.filter_sublist l)
    rw [List.pairwise_iff_forall_sublist]
    intro a b hab
    have ha : a ∈ l.filter p := hab.subset (by simp)
    have hb : b ∈ l.filter p := hab.subset (by simp)
    exact hp a b (List.mem_filter.mp ha).2 (List.mem_filter.mp hb).2
  have hsub2 : List.Sublist (l.filter p) ((sortWith compare l).filter p) := by
    have := hsub.filter p
    rwa [List.filter_filter, show (fun a => (p a && p a)) = p from by funext a; simp] at this
  have hlen : ((sortWith compare l).filter p).length = (l.filter p).length :=
    ((sortWith_perm compare l).filter p).length_eq
  exact (hsub2.eq_of_length hlen.symm).symm

theorem renderEventsList_events (tz : Int) (s : ScheduleState) :
    (renderEventsList tz s).2 = sortWith (compareEvents tz) s.events := by
  unfold renderEventsList
  split_ifs with h
  · rw [List.length_eq_zero] at h
    rw [h]
    rfl
  · rfl

theorem renderEventsList_state (tz : Int) (s : ScheduleState) :
    (renderEventsList tz s).1 = s := by
  unfold renderEventsList
  split_ifs <;> rfl

theorem orderedInsert_congr {α : Type} (r r2 : α → α → Prop) [DecidableRel r] [DecidableRel r2]
    (a : α) (l : List α) (h : ∀ b ∈ l, (r a b ↔ r2 a b)) :
    l.orderedInsert r a = l.orderedInsert r2 a := by
  induction l with
  | nil => rfl
  | cons b l ih =>
    have hb := h b (List.mem_cons_self b l)
    have ih2 := ih (fun c hc => h c (List.mem_cons_of_mem b hc))
    simp only [List.orderedInsert]
    by_cases hr : r a b
    · rw [if_pos hr, if_pos (hb.mp hr)]
    · rw [if_neg hr, if_neg (fun h2 => hr (hb.mpr h2)), ih2]

theorem insertionSort_congr {α : Type} (r r2 : α → α → Prop) [DecidableRel r] [DecidableRel r2]
    (l : List α) (h : ∀ a ∈ l, ∀ b ∈ l, (r a b ↔ r2 a b)) :
    l.insertionSort r = l.insertionSort r2 := by
  induction l with
  | nil => rfl
  | cons a l ih =>
    have ih2 := ih (fun x hx y hy =>
      h x (List.mem_cons_of_mem a hx) y (List.mem_cons_of_mem a hy))
    simp only [List.insertionSort]
    rw [ih2]
    apply orderedInsert_congr
    intro b hb
    have hb2 : b ∈ l := (List.perm_insertionSort r2 l).subset hb
    exact h a (List.mem_cons_self a l) b (List.mem_cons_of_mem a hb2)

/-- On a list on which the comparator orders by a key, the result of the sort
is ordered by the key. -/
theorem sortWith_sorted {α : Type} (compare : α → α → Int) (key : α → Int) (l : List α)
    (h : ∀ a ∈ l, ∀ b ∈ l, (compare a b ≤ 0 ↔ key a ≤ key b)) :
    (sortWith compare l).Pairwise (fun a b => key a ≤ key b) := by
  unfold sortWith
  rw [insertionSort_congr (fun a b => compare a b ≤ 0) (fun a b => key a ≤ key b) l h]
  haveI : IsTotal α (fun a b => key a ≤ key b) := ⟨fun a b => le_total (key a) (key b)⟩
  haveI : IsTrans α (fun a b => key a ≤ key b) := ⟨fun a b c hab hbc => le_trans hab hbc⟩
  exact List.sorted_insertionSort (fun a b => key a ≤ key b) l

/-- On events whose dates parse the comparator orders by the time value. -/
theorem compareEvents_le_iff (tz : Int) (a b : Event) (x y : Int)
    (ha : eventDate tz a = some x) (hb : eventDate tz b = some y) :
    compareEvents tz a b ≤ 0 ↔ x ≤ y := by
  unfold compareEvents
  rw [ha, hb]
  simp only
  omega

/-- With every date parsed, the list that renderEventsList writes is ordered
by the comparator: no event comes before one of an earlier time value. -/
theorem renderEventsList_sorted (tz : Int) (s : ScheduleState)
    (hw : ∀ e ∈ s.events, (eventDate tz e).isSome = true) :
    (renderEventsList tz s).2.Pairwise (fun a b => compareEvents tz a b ≤ 0) := by
  have hiff : ∀ a ∈ s.events, ∀ b ∈ s.events,
      (compareEvents tz a b ≤ 0 ↔ (eventDate tz a).getD 0 ≤ (eventDate tz b).getD 0) := by
    intro a ha b hb
    obtain ⟨x, hx⟩ := Option.isSome_iff_exists.mp (hw a ha)
    obtain ⟨y, hy⟩ := Option.isSome_iff_exists.mp (hw b hb)
    rw [compareEvents_le_iff tz a b x y hx hy, hx, hy]
    rfl
  rw [renderEventsList_events]
  have hs := sortWith_sorted (compareEvents tz) (fun e => (eventDate tz e).getD 0) s.events hiff
  have hp := sortWith_perm (compareEvents tz) s.events
  exact hs.imp_of_mem (fun ha hb h => (hiff _ (hp.subset ha) _ (hp.subset hb)).mpr h)

/-! ## The claims about the event collection -/

/-- C12: for every event collection and every cell of the grid, the cell is
marked has-event if and only if some event of the collection has a date field
equal to the date string of the cell. -/
theorem renderCalendar_hasEvent_iff (events : List Event) (now year month : Int) :
    ∀ c ∈ renderCalendar events now year month,
      c.hasEvent = true ↔ ∃ e ∈ events, e.date = c.date := by
  intro c hc
  obtain ⟨day, o, m, rfl⟩ := renderCalendar_cell events now year month c hc
  simp [createDayElement, hasEventOnDate]

/-- C12 on the February 2024 grid with one event on 29 February: the cell
of that day is in the grid and is marked. -/
theorem renderCalendar_hasEvent_iff_witness :
    createDayElement [sampleEvent 1 "2024-02-29" ""] 0 (some 29) false 2024 1 ∈
      renderCalendar [sampleEvent 1 "2024-02-29" ""] 0 2024 1 ∧
    ((createDayElement [sampleEvent 1 "2024-02-29" ""] 0 (some 29) false 2024 1).hasEvent = true ↔
      ∃ e ∈ [sampleEvent 1 "2024-02-29" ""],
        e.date =
          (createDayElement [sampleEvent 1 "2024-02-29" ""] 0 (some 29) false 2024 1).date) :=
  ⟨by decide,
    renderCalendar_hasEvent_iff [sampleEvent 1 "2024-02-29" ""] 0 2024 1 _ (by decide)⟩

/-- C14: for every event collection and every form input in which the
trimmed title, the date, the category or the priority is empty, saveEvent
shows the error notification and returns with the state, and so the event
collection, exactly as it was. -/
theorem saveEvent_rejects_missing_field (s : ScheduleState) (form : EventForm) (now : Int)
    (nowIso : String)
    (h : trim form.title = "" ∨ form.date = "" ∨ form.category = "" ∨ form.priority = "") :
    saveEvent s form now nowIso =
      .ok (s, { message := "Please fill in all required fields", type := "error" }) :=
  saveEvent_invalid s form now nowIso h

/-- C14 at a title of blanks only, while the event 1 is being edited. -/
theorem saveEvent_rejects_missing_field_witness :
    saveEvent (ScheduleState.mk sampleEvents (some 1))
        (EventForm.mk "   " "2024-03-05" "09:30" "" "health" "high") 1700000000000
        "2023-11-14T22:13:20.000Z" =
      .ok (ScheduleState.mk sampleEvents (some 1),
        Notification.mk "Please fill in all required fields" "error") :=
  saveEvent_rejects_missing_field _ _ _ _ (Or.inl (by decide))

/-- C15: for every valid form input, when saveEvent runs with
`editingEventId` set to the id of an existing event (an id is a clock value
`Date.now()`, so it is not 0), the collection keeps its length, the event at
the position of that id becomes the event with the same id, the fields of the
form and the createdAt of the event it replaces, and every other position is
unchanged; with distinct ids that position is the only one holding the id. -/
theorem saveEvent_edit_replaces (s : ScheduleState) (form : EventForm) (now : Int)
    (nowIso : String) (id : Int)
    (hv : ¬ (trim form.title = "" ∨ form.date = "" ∨ form.category = "" ∨ form.priority = ""))
    (he : s.editingEventId = some id) (h0 : id ≠ 0) (hex : ∃ e ∈ s.events, e.id = id) :
    ∃ (s2 : ScheduleState) (i : Nat) (old : Event),
      saveEvent s form now nowIso =
        .ok (s2, { message := "Event updated successfully!", type := "success" }) ∧
      s2.events.length = s.events.length ∧
      s.events[i]? = some old ∧ old.id = id ∧
      s2.events[i]? = some
        { id := id, title := trim form.title, date := form.date, time := form.time,
          description := trim form.description, category := form.category,
          priority := form.priority, createdAt := old.createdAt } ∧
      (∀ j, j ≠ i → s2.events[j]? = s.events[j]?) ∧
      ((s.events.map (fun e => e.id)).Nodup →
        ∀ j e, s.events[j]? = some e → e.id = id → j = i) := by
  obtain ⟨i, old, h1, h2, h3, _⟩ := saveEvent_edit s form now nowIso id hv he h0 hex
  have hlt : i < s.events.length := (List.getElem?_eq_some.mp h1).1
  refine ⟨_, i, old, h3, ?_, h1, h2, ?_, ?_, ?_⟩
  · simp
  · simp [List.getElem?_set, hlt]
  · intro j hj
    exact List.getElem?_set_ne (Ne.symm hj)
  · intro hn j e hj hid
    exact index_unique_of_nodup s.events hn i j old e h1 hj (h2.trans hid.symm)

/-- C15 on the collection of events 1 and 2 while event 2 is edited. -/
theorem saveEvent_edit_replaces_witness :
    ∃ (s2 : ScheduleState) (i : Nat) (old : Event),
      saveEvent (ScheduleState.mk sampleEvents (some 2)) sampleForm 1700000000000
          "2023-11-14T22:13:20.000Z" =
        .ok (s2, Notification.mk "Event updated successfully!" "success") ∧
      s2.events.length = sampleEvents.length ∧
      sampleEvents[i]? = some old ∧
      old.id = 2 ∧
      s2.events[i]? = some (Event.mk 2 (trim sampleForm.title) sampleForm.date sampleForm.time
        (trim sampleForm.description) sampleForm.category sampleForm.priority old.createdAt) ∧
      (∀ j, j ≠ i → s2.events[j]? = sampleEvents[j]?) ∧
      ((sampleEvents.map (fun e => e.id)).Nodup →
        ∀ j e, sampleEvents[j]? = some e → e.id = 2 → j = i) :=
  saveEvent_edit_replaces (ScheduleState.mk sampleEvents (some 2)) sampleForm 1700000000000
    "2023-11-14T22:13:20.000Z" 2 (by decide) rfl (by decide)
    ⟨sampleEvent 2 "2024-01-02" "", by simp [sampleEvents], rfl⟩

/-- C16, as the code has it: for every valid form input, when saveEvent runs
with no event being edited (a null or zero `editingEventId`), the resulting
collection is the old one with exactly one event appended at the end, built
from the form, with the clock value as id and the current time as createdAt;
on an empty collection the result has length 1; and the new id differs from
the id of every previous event when no previous event has the clock value as
its id. -/
theorem saveEvent_new_appends (s : ScheduleState) (form : EventForm) (now : Int)
    (nowIso : String)
    (hv : ¬ (trim form.title = "" ∨ form.date = "" ∨ form.category = "" ∨ form.priority = ""))
    (he : isTruthy s.editingEventId = false) :
    ∃ (s2 : ScheduleState) (added : Event),
      saveEvent s form now nowIso =
        .ok (s2, Notification.mk "Event added successfully!" "success") ∧
      s2.events = s.events ++ [added] ∧
      added = Event.mk now (trim form.title) form.date form.time (trim form.description)
        form.category form.priority nowIso ∧
      (s.events = [] → s2.events.length = 1) ∧
      ((∀ e ∈ s.events, e.id ≠ now) → ∀ e ∈ s.events, e.id ≠ added.id) := by
  refine ⟨_, _, saveEvent_new s form now nowIso hv he, rfl, rfl, ?_, ?_⟩
  · intro h
    simp [h]
  · intro h e hm
    exact h e hm

/-- C16 on the collection of events 1 and 2, at a clock value that is not
an id of the collection. -/
theorem saveEvent_new_appends_witness :
    ∃ (s2 : ScheduleState) (added : Event),
      saveEvent (ScheduleState.mk sampleEvents none) sampleForm 1700000000000
          "2023-11-14T22:13:20.000Z" =
        .ok (s2, Notification.mk "Event added successfully!" "success") ∧
      s2.events = sampleEvents ++ [added] ∧
      added = Event.mk 1700000000000 (trim sampleForm.title) sampleForm.date sampleForm.time
        (trim sampleForm.description) sampleForm.category sampleForm.priority
        "2023-11-14T22:13:20.000Z" ∧
      (sampleEvents = [] → s2.events.length = 1) ∧
      ((∀ e ∈ sampleEvents, e.id ≠ 1700000000000) → ∀ e ∈ sampleEvents, e.id ≠ added.id) :=
  saveEvent_new_appends (ScheduleState.mk sampleEvents none) sampleForm 1700000000000
    "2023-11-14T22:13:20.000Z" (by decide) rfl

/-- C16 as stated fails when the clock value is already an id: with the one
event of id 5 in the collection, no event being edited and `Date.now()` equal
to 5, the appended event has the id 5 of the event before it. -/
theorem saveEvent_new_id_collides :
    saveEvent (ScheduleState.mk [sampleEvent 5 "2024-01-01" ""] none) sampleForm 5
        "1970-01-01T00:00:00.005Z" =
      .ok (ScheduleState.mk
          [sampleEvent 5 "2024-01-01" "",
            Event.mk 5 "Dentist" "2024-03-05" "09:30" "" "health" "high"
              "1970-01-01T00:00:00.005Z"]
          none,
        Notification.mk "Event added successfully!" "success") ∧
    (sampleEvent 5 "2024-01-01" "").id =
      (Event.mk 5 "Dentist" "2024-03-05" "09:30" "" "health" "high"
        "1970-01-01T00:00:00.005Z").id :=
  ⟨rfl, rfl⟩

/-- C17, as the code has it: from a collection with pairwise distinct ids,
every deleteEvent, and every saveEvent that returns, at a clock value that is
not already an id when a new event is created, yields a collection with
pairwise distinct ids. -/
theorem ids_stay_distinct :
    (∀ (s s2 : ScheduleState) (form : EventForm) (now : Int) (nowIso : String)
        (note : Notification),
      (s.events.map (fun e => e.id)).Nodup →
      (isTruthy s.editingEventId = false → ∀ e ∈ s.events, e.id ≠ now) →
      saveEvent s form now nowIso = .ok (s2, note) →
      (s2.events.map (fun e => e.id)).Nodup) ∧
    (∀ (s : ScheduleState) (eventId : Int) (confirmed : Bool),
      (s.events.map (fun e => e.id)).Nodup →
      ((deleteEvent s eventId confirmed).1.events.map (fun e => e.id)).Nodup) :=
  ⟨fun s s2 form now nowIso note hn hc hs => saveEvent_nodup s s2 form now nowIso note hn hc hs,
    fun s eventId confirmed hn => deleteEvent_nodup s eventId confirmed hn⟩

/-- C17 on the collection of events 1 and 2: a new event at a fresh clock
value, and the deletion of event 1. -/
theorem ids_stay_distinct_witness :
    ((sampleEvents ++ [Event.mk 1700000000000 "Dentist" "2024-03-05" "09:30" "" "health"
        "high" "2023-11-14T22:13:20.000Z"]).map (fun e => e.id)).Nodup ∧
    ((deleteEvent (ScheduleState.mk sampleEvents none) 1 true).1.events.map
      (fun e => e.id)).Nodup :=
  ⟨ids_stay_distinct.1 (ScheduleState.mk sampleEvents none) _ sampleForm 1700000000000
      "2023-11-14T22:13:20.000Z" _ (by decide) (fun _ => by decide)
      (show saveEvent (ScheduleState.mk sampleEvents none) sampleForm 1700000000000
          "2023-11-14T22:13:20.000Z" =
        .ok (ScheduleState.mk (sampleEvents ++ [Event.mk 1700000000000 "Dentist" "2024-03-05"
            "09:30" "" "health" "high" "2023-11-14T22:13:20.000Z"]) none,
          Notification.mk "Event added successfully!" "success") from rfl),
    ids_stay_distinct.2 (ScheduleState.mk sampleEvents none) 1 true (by decide)⟩

/-- C17 as stated fails: the ids of the collection holding the one event of
id 5 are distinct, and the saveEvent of a new event at the clock value 5
yields a collection whose ids, 5 and 5, are not. -/
theorem ids_collide_at_equal_clock :
    ([sampleEvent 5 "2024-01-01" ""].map (fun e => e.id)).Nodup ∧
    saveEvent (ScheduleState.mk [sampleEvent 5 "2024-01-01" ""] none) sampleForm 5
        "1970-01-01T00:00:00.005Z" =
      .ok (ScheduleState.mk
          [sampleEvent 5 "2024-01-01" "",
            Event.mk 5 "Dentist" "2024-03-05" "09:30" "" "health" "high"
              "1970-01-01T00:00:00.005Z"]
          none,
        Notification.mk "Event added successfully!" "success") ∧
    ¬ ([sampleEvent 5 "2024-01-01" "",
        Event.mk 5 "Dentist" "2024-03-05" "09:30" "" "health" "high"
          "1970-01-01T00:00:00.005Z"].map (fun e => e.id)).Nodup :=
  ⟨by decide, rfl, by decide⟩

/-- C18 at two inputs. In a zone 8 hours ahead of UTC, of two events on
2024-01-01, one without a time and one at 07:00, the one at 07:00 is listed
first, although (2024-01-01, 00:00) comes before (2024-01-01, 07:00). In a
zone 5 hours behind UTC, an event on 2024-01-02 without a time is listed
before an event on 2024-01-01 at 20:00. With no offset both lists come out
in the order of (date, time); and the three events without times dated
2024-01-03, 2024-01-01, 2024-01-02 are listed as 01, 02, 03 in every zone. -/
theorem renderEventsList_mixes_utc_and_local :
    (renderEventsList 480 (ScheduleState.mk
        [sampleEvent 1 "2024-01-01" "", sampleEvent 2 "2024-01-01" "07:00"] none)).2 =
      [sampleEvent 2 "2024-01-01" "07:00", sampleEvent 1 "2024-01-01" ""] ∧
    (renderEventsList (-300) (ScheduleState.mk
        [sampleEvent 1 "2024-01-01" "20:00", sampleEvent 2 "2024-01-02" ""] none)).2 =
      [sampleEvent 2 "2024-01-02" "", sampleEvent 1 "2024-01-01" "20:00"] ∧
    (renderEventsList 0 (ScheduleState.mk
        [sampleEvent 2 "2024-01-01" "07:00", sampleEvent 1 "2024-01-01" ""] none)).2 =
      [sampleEvent 1 "2024-01-01" "", sampleEvent 2 "2024-01-01" "07:00"] ∧
    (renderEventsList 0 (ScheduleState.mk
        [sampleEvent 2 "2024-01-02" "", sampleEvent 1 "2024-01-01" "20:00"] none)).2 =
      [sampleEvent 1 "2024-01-01" "20:00", sampleEvent 2 "2024-01-02" ""] ∧
    ∀ tz : Int, (renderEventsList tz (ScheduleState.mk
        [sampleEvent 3 "2024-01-03" "", sampleEvent 1 "2024-01-01" "",
          sampleEvent 2 "2024-01-02" ""] none)).2 =
      [sampleEvent 1 "2024-01-01" "", sampleEvent 2 "2024-01-02" "",
        sampleEvent 3 "2024-01-03" ""] := by
  refine ⟨by decide, by decide, by decide, by decide, ?_⟩
  intro tz
  rfl

/-- C19: for every zone and every event collection in which the date of every
event parses (as it does for the dates and times that the date and time fields
of the form give), renderEventsList leaves the state, and with it the order of
the collection, as it was; the list it writes is ordered by the comparator and
is a permutation of the collection; and the events with any one date and time
appear in it in the same order as in the collection. -/
theorem renderEventsList_stable (tz : Int) (s : ScheduleState)
    (hw : ∀ e ∈ s.events, (eventDate tz e).isSome = true) :
    (renderEventsList tz s).1 = s ∧
    (renderEventsList tz s).2.Pairwise (fun a b => compareEvents tz a b ≤ 0) ∧
    (renderEventsList tz s).2.Perm s.events ∧
    ∀ (date time : String),
      (renderEventsList tz s).2.filter (fun e => decide (e.date = date ∧ e.time = time)) =
        s.events.filter (fun e => decide (e.date = date ∧ e.time = time)) := by
  refine ⟨renderEventsList_state tz s, renderEventsList_sorted tz s hw, ?_, ?_⟩
  · rw [renderEventsList_events]
    exact sortWith_perm _ _
  · intro date time
    rw [renderEventsList_events]
    apply sortWith_filter
    intro a b ha hb
    rw [decide_eq_true_eq] at ha hb
    exact compareEvents_same_key tz a b (ha.1.trans hb.1.symm) (ha.2.trans hb.2.symm)

/-- C19 in a zone 8 hours ahead of UTC, on a collection of three events of
which the last two share their date and time: the event of 1 January 09:30
with id 1 stays before the one with id 2, and the collection is as it was. -/
theorem renderEventsList_stable_witness :
    (∀ e ∈ [sampleEvent 3 "2024-01-02" "", sampleEvent 1 "2024-01-01" "09:30",
        sampleEvent 2 "2024-01-01" "09:30"], (eventDate 480 e).isSome = true) ∧
    (renderEventsList 480 (ScheduleState.mk
        [sampleEvent 3 "2024-01-02" "", sampleEvent 1 "2024-01-01" "09:30",
          sampleEvent 2 "2024-01-01" "09:30"] none)).2 =
      [sampleEvent 1 "2024-01-01" "09:30", sampleEvent 2 "2024-01-01" "09:30",
        sampleEvent 3 "2024-01-02" ""] ∧
    (renderEventsList 480 (ScheduleState.mk
        [sampleEvent 3 "2024-01-02" "", sampleEvent 1 "2024-01-01" "09:30",
          sampleEvent 2 "2024-01-01" "09:30"] none)).2.filter
        (fun e => decide (e.date = "2024-01-01" ∧ e.time = "09:30")) =
      [sampleEvent 3 "2024-01-02" "", sampleEvent 1 "2024-01-01" "09:30",
        sampleEvent 2 "2024-01-01" "09:30"].filter
        (fun e => decide (e.date = "2024-01-01" ∧ e.time = "09:30")) :=
  ⟨by decide, by decide,
    (renderEventsList_stable 480 (ScheduleState.mk
      [sampleEvent 3 "2024-01-02" "", sampleEvent 1 "2024-01-01" "09:30",
        sampleEvent 2 "2024-01-01" "09:30"] none) (by decide)).2.2.2 "2024-01-01" "09:30"⟩

/-- C20: for every event collection and every id, a confirmed deleteEvent
leaves exactly the events whose id differs from the given id, in their
original order and unchanged, and leaves `editingEventId` alone; with
distinct ids it removes exactly one event when the id is present; and it
leaves the collection unchanged when the id is absent. -/
theorem deleteEvent_removes_id (s : ScheduleState) (eventId : Int) :
    (deleteEvent s eventId true).1.events = s.events.filter (fun e => e.id != eventId) ∧
    (deleteEvent s eventId true).1.editingEventId = s.editingEventId ∧
    List.Sublist (deleteEvent s eventId true).1.events s.events ∧
    (∀ e, e ∈ (deleteEvent s eventId true).1.events ↔ e ∈ s.events ∧ e.id ≠ eventId) ∧
    ((s.events.map (fun e => e.id)).Nodup → (∃ e ∈ s.events, e.id = eventId) →
      (deleteEvent s eventId true).1.events.length + 1 = s.events.length) ∧
    ((∀ e ∈ s.events, e.id ≠ eventId) → (deleteEvent s eventId true).1.events = s.events) := by
  have h : (deleteEvent s eventId true).1.events =
      s.events.filter (fun e => e.id != eventId) := rfl
  refine ⟨h, rfl, ?_, ?_, ?_, ?_⟩
  · rw [h]
    exact List.filter_sublist _
  · intro e
    rw [h, List.mem_filter]
    simp
  · intro hn hex
    rw [h]
    exact length_filter_ne_of_nodup s.events eventId hn hex
  · intro hall
    rw [h, List.filter_eq_self]
    intro a ha
    simpa using hall a ha

/-- C20 on the collection of events 1 and 2: deleting 1 leaves event 2,
deleting the absent id 3 leaves both. -/
theorem deleteEvent_removes_id_witness :
    (deleteEvent (ScheduleState.mk sampleEvents none) 1 true).1.events.length + 1 =
      sampleEvents.length ∧
    (deleteEvent (ScheduleState.mk sampleEvents none) 3 true).1.events = sampleEvents :=
  ⟨(deleteEvent_removes_id (ScheduleState.mk sampleEvents none) 1).2.2.2.2.1 (by decide)
      ⟨sampleEvent 1 "2024-01-01" "", by simp [sampleEvents], rfl⟩,
    (deleteEvent_removes_id (ScheduleState.mk sampleEvents none) 3).2.2.2.2.2 (by decide)⟩



/-! ## The day of the month of an arbitrary day -/

/-- Every day is the day `k + 1` of some month `mn` of its year. -/
theorem day_in_month (d : Int) :
    ∃ (mn k : Int), 0 ≤ mn ∧ mn ≤ 11 ∧ 0 ≤ k ∧ k < monthLength (YearFromDay d) mn ∧
      d = DayFromYear (YearFromDay d) + monthStart mn (leapDay (YearFromDay d)) + k := by
  obtain ⟨h1, h2⟩ := YearFromDay_spec d
  rw [DayFromYear_succ] at h2
  generalize YearFromDay d = y at h1 h2 ⊢
  obtain ⟨w, hw⟩ : ∃ w, w = d - DayFromYear y := ⟨_, rfl⟩
  have hl := leapDay_cases y
  have hcases :
      (0 ≤ w ∧ w < 31) ∨
      (31 ≤ w ∧ w < 59 + leapDay y) ∨
      (59 + leapDay y ≤ w ∧ w < 90 + leapDay y) ∨
      (90 + leapDay y ≤ w ∧ w < 120 + leapDay y) ∨
      (120 + leapDay y ≤ w ∧ w < 151 + leapDay y) ∨
      (151 + leapDay y ≤ w ∧ w < 181 + leapDay y) ∨
      (181 + leapDay y ≤ w ∧ w < 212 + leapDay y) ∨
      (212 + leapDay y ≤ w ∧ w < 243 + leapDay y) ∨
      (243 + leapDay y ≤ w ∧ w < 273 + leapDay y) ∨
      (273 + leapDay y ≤ w ∧ w < 304 + leapDay y) ∨
      (304 + leapDay y ≤ w ∧ w < 334 + leapDay y) ∨
      (334 + leapDay y ≤ w ∧ w < 365 + leapDay y) := by
    omega
  have hd : d = DayFromYear y + w := by omega
  rcases hcases with h | h | h | h | h | h | h | h | h | h | h | h
  · have e1 : monthLength y 0 = 31 := rfl
    have e2 : monthStart 0 (leapDay y) = 0 := rfl
    exact ⟨0, w - (0), by omega, by omega, by omega, by omega, by omega⟩
  · have e1 : monthLength y 1 = 28 + leapDay y := rfl
    have e2 : monthStart 1 (leapDay y) = 31 := rfl
    exact ⟨1, w - (31), by omega, by omega, by omega, by omega, by omega⟩
  · have e1 : monthLength y 2 = 31 := rfl
    have e2 : monthStart 2 (leapDay y) = 59 + leapDay y := rfl
    exact ⟨2, w - (59 + leapDay y), by omega, by omega, by omega, by omega, by omega⟩
  · have e1 : monthLength y 3 = 30 := rfl
    have e2 : monthStart 3 (leapDay y) = 90 + leapDay y := rfl
    exact ⟨3, w - (90 + leapDay y), by omega, by omega, by omega, by omega, by omega⟩
  · have e1 : monthLength y 4 = 31 := rfl
    have e2 : monthStart 4 (leapDay y) = 120 + leapDay y := rfl
    exact ⟨4, w - (120 + leapDay y), by omega, by omega, by omega, by omega, by omega⟩
  · have e1 : monthLength y 5 = 30 := rfl
    have e2 : monthStart 5 (leapDay y) = 151 + leapDay y := rfl
    exact ⟨5, w - (151 + leapDay y), by omega, by omega, by omega, by omega, by omega⟩
  · have e1 : monthLength y 6 = 31 := rfl
    have e2 : monthStart 6 (leapDay y) = 181 + leapDay y := rfl
    exact ⟨6, w - (181 + leapDay y), by omega, by omega, by omega, by omega, by omega⟩
  · have e1 : monthLength y 7 = 31 := rfl
    have e2 : monthStart 7 (leapDay y) = 212 + leapDay y := rfl
    exact ⟨7, w - (212 + leapDay y), by omega, by omega, by omega, by omega, by omega⟩
  · have e1 : monthLength y 8 = 30 := rfl
    have e2 : monthStart 8 (leapDay y) = 243 + leapDay y := rfl
    exact ⟨8, w - (243 + leapDay y), by omega, by omega, by omega, by omega, by omega⟩
  · have e1 : monthLength y 9 = 31 := rfl
    have e2 : monthStart 9 (leapDay y) = 273 + leapDay y := rfl
    exact ⟨9, w - (273 + leapDay y), by omega, by omega, by omega, by omega, by omega⟩
  · have e1 : monthLength y 10 = 30 := rfl
    have e2 : monthStart 10 (leapDay y) = 304 + leapDay y := rfl
    exact ⟨10, w - (304 + leapDay y), by omega, by omega, by omega, by omega, by omega⟩
  · have e1 : monthLength y 11 = 31 := rfl
    have e2 : monthStart 11 (leapDay y) = 334 + leapDay y := rfl
    exact ⟨11, w - (334 + leapDay y), by omega, by omega, by omega, by omega, by omega⟩

/-- Month and day of the month of any day lie in the calendar. -/
theorem date_range (d : Int) :
    (0 ≤ MonthFromDay d ∧ MonthFromDay d ≤ 11) ∧
    1 ≤ DateFromDay d ∧ DateFromDay d ≤ monthLength (YearFromDay d) (MonthFromDay d) := by
  obtain ⟨mn, k, h0, h11, hk0, hk, hd⟩ := day_in_month d
  obtain ⟨_, hm, hdate⟩ := civil_of_day (YearFromDay d) mn k ⟨h0, h11⟩ ⟨hk0, hk⟩
  rw [← hd] at hm hdate
  rw [hm, hdate]
  exact ⟨⟨h0, h11⟩, by omega, by omega⟩

theorem leapDay_two_digit (year : Int) (hy : year ≠ 0) :
    leapDay (if 0 ≤ year ∧ year ≤ 99 then 1900 + year else year) = leapDay year := by
  split_ifs with h
  · unfold leapDay DaysInYear
    split_ifs <;> omega
  · rfl

/-- The constant `daysInMonth` is the length of the displayed month, for a
displayed year from -271820 to 275759 other than 0. -/
theorem daysInMonth_eq (year month : Int) (hm : 0 ≤ month ∧ month ≤ 11) (hy : year ≠ 0)
    (hr : -271821 < year ∧ year < 275760) :
    daysInMonth year month = some (monthLength year month) := by
  obtain ⟨_, days, _, _, hd, _⟩ := constants_of_year year month hr hm
  rw [hd, daysInMonth_eq_some year month days hd]
  have e1 : month / 12 = 0 := by omega
  have e2 : month % 12 = month := by omega
  rw [e1, e2, add_zero]
  have hl := leapDay_two_digit year hy
  congr 1
  unfold monthLength
  split <;> simp only [hl]

theorem countP_range_succ_eq (n : Nat) (D : Int) :
    (List.range n).countP (fun (k : Nat) => decide ((k : Int) + 1 = D)) =
      if 1 ≤ D ∧ D ≤ (n : Int) then 1 else 0 := by
  induction n with
  | zero =>
    rw [List.range_zero, List.countP_nil]
    split_ifs <;> omega
  | succ n ih =>
    rw [List.range_succ, List.countP_append, ih]
    simp only [List.countP_cons, List.countP_nil, decide_eq_true_eq]
    split_ifs <;> omega

/-! ## The today mark -/

theorem createDayElement_today (events : List Event) (now : Int) (day : Option Int) (o : Bool)
    (year month : Int) :
    (createDayElement events now day o year month).today =
      (decide (year = getFullYear now) && decide (month = getMonth now) &&
        decide (day = some (getDate now)) && !o) := rfl

theorem otherMonth_not_today (events : List Event) (now year month : Int) :
    ∀ c ∈ renderCalendar events now year month, c.otherMonth = true → c.today = false := by
  intro c hc ho
  obtain ⟨day, o, m, rfl⟩ := renderCalendar_cell events now year month c hc
  have : o = true := ho
  rw [createDayElement_today, this]
  simp

/-- The number of cells marked today, in terms of the day of the month of
the current date; a `daysInMonth` that is `NaN` counts as 0 here, no cell of
the month being written. -/
theorem countP_today (events : List Event) (now year month : Int) :
    (renderCalendar events now year month).countP (fun c => c.today) =
      if (year = getFullYear now ∧ month = getMonth now) ∧
          (1 ≤ getDate now ∧ getDate now ≤ (daysInMonth year month).getD 0) then 1 else 0 := by
  have hprev : (prevMonthCells events now year month).countP (fun c => c.today) = 0 := by
    rw [List.countP_eq_zero]
    intro c hc
    unfold prevMonthCells at hc
    split at hc
    · simp at hc
    · rw [List.mem_map] at hc
      obtain ⟨i, _, rfl⟩ := hc
      simp [createDayElement_today]
  have hnext : ∀ n, (nextMonthCells events now year month n).countP (fun c => c.today) = 0 := by
    intro n
    rw [List.countP_eq_zero]
    intro c hc
    unfold nextMonthCells at hc
    rw [List.mem_map] at hc
    obtain ⟨i, _, rfl⟩ := hc
    simp [createDayElement_today]
  have hcur : (currentMonthCells events now year month).countP (fun c => c.today) =
      if (year = getFullYear now ∧ month = getMonth now) ∧
          (1 ≤ getDate now ∧ getDate now ≤ (daysInMonth year month).getD 0) then 1 else 0 := by
    unfold currentMonthCells
    cases hdm : daysInMonth year month with
    | none =>
      simp only [Option.getD_none, List.countP_nil]
      rw [if_neg]
      intro h
      omega
    | some days =>
      have hd := daysInMonth_range year month days hdm
      simp only [Option.getD_some]
      rw [List.countP_map]
      by_cases hym : year = getFullYear now ∧ month = getMonth now
      · have hf : ((fun c : DayElement => c.today) ∘ fun (k : Nat) =>
            createDayElement events now (some ((k : Int) + 1)) false year month) =
            fun (k : Nat) => decide ((k : Int) + 1 = getDate now) := by
          funext k
          simp [createDayElement_today, hym.1, hym.2]
        rw [hf, countP_range_succ_eq]
        have hcast : ((days.toNat : Nat) : Int) = days := by
          omega
        rw [hcast]
        simp only [hym, true_and, and_self]
      · have hf : ((fun c : DayElement => c.today) ∘ fun (k : Nat) =>
            createDayElement events now (some ((k : Int) + 1)) false year month) =
            fun (_ : Nat) => false := by
          funext k
          simp only [Function.comp, createDayElement_today]
          rcases not_and_or.mp hym with h | h
          · simp [h]
          · simp [h]
        rw [hf, if_neg (fun h => hym h.1)]
        simp
  unfold renderCalendar
  simp only [List.countP_append, hprev, hnext, hcur]
  omega

/-- The year of a day of the years -271820 to 275759, read off the day. -/
theorem getFullYear_range (now : Int)
    (hr : -271821 < getFullYear now ∧ getFullYear now < 275760) :
    -100000000 ≤ now ∧ now ≤ 100000000 := by
  obtain ⟨h1, h2⟩ := YearFromDay_spec now
  have a : DayFromYear (-271820) ≤ DayFromYear (getFullYear now) :=
    DayFromYear_strictMono.monotone (by omega)
  have b : DayFromYear (getFullYear now + 1) ≤ DayFromYear 275760 :=
    DayFromYear_strictMono.monotone (by omega)
  have c : DayFromYear (-271820) = -99999744 := by decide
  have d : DayFromYear 275760 = 99999744 := by decide
  unfold getFullYear at a b
  omega

/-- For a current date in the years -271820 to 275759 other than the year 0,
exactly one cell is marked today when the displayed month is the current
month, and none otherwise. -/
theorem countP_today_eq (events : List Event) (now year month : Int)
    (hr : -271821 < getFullYear now ∧ getFullYear now < 275760) (h0 : getFullYear now ≠ 0) :
    (renderCalendar events now year month).countP (fun c => c.today) =
      if year = getFullYear now ∧ month = getMonth now then 1 else 0 := by
  rw [countP_today]
  by_cases hym : year = getFullYear now ∧ month = getMonth now
  · have hd := date_range now
    have hm : 0 ≤ month ∧ month ≤ 11 := by
      rw [hym.2]
      exact hd.1
    have hdim := daysInMonth_eq year month hm (by rw [hym.1]; exact h0) (by rw [hym.1]; exact hr)
    have hle : getDate now ≤ (daysInMonth year month).getD 0 := by
      rw [hdim, Option.getD_some, hym.1, hym.2]
      exact hd.2.2
    have h1 : 1 ≤ getDate now := hd.2.1
    rw [if_pos ⟨hym, h1, hle⟩, if_pos hym]
  · rw [if_neg hym, if_neg (fun h => hym h.1)]

/-- The year 0 is read as 1900 in `new Date(0, 2, 0)`: on 29 February of the
year 0 (day -719469) the displayed year 0 and month 1 are those of the current
date, `daysInMonth` is 28 and no cell of the grid is marked today. -/
theorem daysInMonth_of_year_zero :
    (getFullYear (-719469) = 0 ∧ getMonth (-719469) = 1 ∧ getDate (-719469) = 29) ∧
    daysInMonth 0 1 = some 28 ∧
    (renderCalendar [] (-719469) 0 1).countP (fun c => c.today) = 0 := by
  decide

/-! ## The claims about the dates and the today mark of the grid -/

/-- C11 at January and December 2024. Read as dates, the date strings of the
first three cells of the January grid are: no date ("2024-00-31"), then day
19723 (1 January 2024) and day 19724; the cell itself is day 19722, which is
what "2023-12-31" denotes. In the December grid the cell of 31 December
(day 20088) is followed by cells whose strings ("2024-13-01", ...) denote no
date. So the strings of these grids do not denote 42 consecutive days. -/
theorem year_boundary_dates_not_consecutive :
    ((renderCalendar [] 0 2024 0).map (fun c => c.date)).take 3 =
      ["2024-00-31", "2024-01-01", "2024-01-02"] ∧
    ((renderCalendar [] 0 2024 0).map (fun c => parseDay c.date.data)).take 3 =
      [none, some 19723, some 19724] ∧
    (newDate 2024 (0 - 1) 31 = some 19722 ∧ parseDay "2023-12-31".data = some 19722) ∧
    (((renderCalendar [] 0 2024 11).map (fun c => c.date)).drop 30).take 3 =
      ["2024-12-31", "2024-13-01", "2024-13-02"] ∧
    (((renderCalendar [] 0 2024 11).map (fun c => parseDay c.date.data)).drop 30).take 3 =
      [some 20088, none, none] := by
  decide

/-- C13: for every displayed year and month, and every current date the clock
can supply (a date in one of the years -271820 to 275759 other than the year
0, which `new Date(year, month, day)` reads as 1900), exactly one cell of the
grid is marked today when the displayed year and month are those of the
current date, and none otherwise; and a cell flagged other-month is never
marked today. -/
theorem today_marked_once (events : List Event) (now year month : Int)
    (hr : -271821 < getFullYear now ∧ getFullYear now < 275760) (h0 : getFullYear now ≠ 0) :
    ((renderCalendar events now year month).countP (fun c => c.today) =
      if year = getFullYear now ∧ month = getMonth now then 1 else 0) ∧
    ∀ c ∈ renderCalendar events now year month, c.otherMonth = true → c.today = false :=
  ⟨countP_today_eq events now year month hr h0, otherMonth_not_today events now year month⟩

/-- C13 at the February 2024 grid on 29 February 2024 (day 19782). -/
theorem today_marked_once_witness :
    (getFullYear 19782 = 2024 ∧ getMonth 19782 = 1 ∧ getDate 19782 = 29) ∧
    ((renderCalendar [] 19782 2024 1).countP (fun c => c.today) =
      if (2024 : Int) = getFullYear 19782 ∧ (1 : Int) = getMonth 19782 then 1 else 0) ∧
    ∀ c ∈ renderCalendar [] 19782 2024 1, c.otherMonth = true → c.today = false :=
  ⟨by decide, today_marked_once [] 19782 2024 1 (by decide) (by decide)⟩


/-! ## Goal setters, sleep log and the event modal -/

/-- The daily goal after saveDailyGoal is the old goal, a number within the
bounds, or `NaN`. -/
theorem saveDailyGoal_result (dailyGoal : JsNumber) (field : String) :
    (saveDailyGoal dailyGoal field).1 = dailyGoal ∨
    (saveDailyGoal dailyGoal field).1 = .nan ∨
    ∃ n : Int, 1000 ≤ n ∧ n ≤ 5000 ∧ (saveDailyGoal dailyGoal field).1 = .num (n : ℚ) := by
  unfold saveDailyGoal
  simp only
  cases h : parseInt field with
  | none => right; left; simp [JsNumber.ofInt, JsNumber.lt]
  | some n =>
    simp only [JsNumber.ofInt, JsNumber.lt, Bool.or_eq_true, decide_eq_true_eq]
    split_ifs with hb
    · left; rfl
    · right; right
      refine ⟨n, ?_, ?_, rfl⟩
      · have : ¬ ((n : ℚ) < 1000) := fun h1 => hb (Or.inl h1)
        have h2 : (1000 : ℚ) ≤ (n : ℚ) := not_lt.mp this
        exact_mod_cast h2
      · have : ¬ ((5000 : ℚ) < (n : ℚ)) := fun h1 => hb (Or.inr h1)
        have h2 : (n : ℚ) ≤ 5000 := not_lt.mp this
        exact_mod_cast h2

/-- The sleep goal after updateGoal is the old goal, a number within the
bounds, or `NaN`. -/
theorem updateGoal_result (numberText : JsNumber → String) (sleepGoal newGoal : JsNumber) :
    (updateGoal numberText sleepGoal newGoal).1 = sleepGoal ∨
    (updateGoal numberText sleepGoal newGoal).1 = .nan ∨
    ∃ q : ℚ, 4 ≤ q ∧ q ≤ 12 ∧ (updateGoal numberText sleepGoal newGoal).1 = .num q := by
  unfold updateGoal
  cases newGoal with
  | nan => right; left; simp [JsNumber.lt]
  | num q =>
    simp only [JsNumber.lt, Bool.or_eq_true, decide_eq_true_eq]
    split_ifs with hb
    · left; rfl
    · right; right
      exact ⟨q, not_lt.mp (fun h1 => hb (Or.inl h1)), not_lt.mp (fun h1 => hb (Or.inr h1)), rfl⟩

/-- An hours value that is 0 or `NaN`, an empty date or an empty quality make
logSleep return with the first error. -/
theorem logSleep_missing (sleepEntries : List SleepEntry) (form : SleepForm) (now : Int)
    (nowIso : String)
    (h : form.date = "" ∨ form.hours.truthy = false ∨ form.quality = "") :
    logSleep sleepEntries form now nowIso =
      (sleepEntries, Notification.mk "Please fill in all required fields" "error") := by
  unfold logSleep
  simp only [if_pos h]

/-- An hours value below 0 or above 24 makes logSleep return with one of the
two errors. -/
theorem logSleep_out_of_range (sleepEntries : List SleepEntry) (form : SleepForm) (now : Int)
    (nowIso : String) (q : ℚ) (hq : form.hours = .num q) (h : q < 0 ∨ 24 < q) :
    logSleep sleepEntries form now nowIso =
        (sleepEntries, Notification.mk "Please fill in all required fields" "error") ∨
    logSleep sleepEntries form now nowIso =
        (sleepEntries, Notification.mk "Sleep hours must be between 0 and 24" "error") := by
  by_cases hm : form.date = "" ∨ form.hours.truthy = false ∨ form.quality = ""
  · exact Or.inl (logSleep_missing sleepEntries form now nowIso hm)
  · right
    unfold logSleep
    simp only [if_neg hm]
    have hr : (form.hours.lt (.num 0) || (JsNumber.num 24).lt form.hours) = true := by
      rw [hq]
      simpa [JsNumber.lt] using h
    simp only [hr, if_true]

/-- What logSleep does with an accepted form, in terms of the lookup of the
date. -/
theorem logSleep_accepted (sleepEntries : List SleepEntry) (form : SleepForm) (now : Int)
    (nowIso : String) (q : ℚ) (hq : form.hours = .num q) (h0 : 0 < q) (h24 : q ≤ 24)
    (hd : form.date ≠ "") (hqual : form.quality ≠ "") :
    logSleep sleepEntries form now nowIso =
      match sleepEntries.findIdx? (fun e => e.date == form.date) with
      | some existingIndex =>
        match sleepEntries[existingIndex]? with
        | some existing =>
          (sleepEntries.set existingIndex
            (SleepEntry.mk existing.id form.date form.hours form.bedtime form.wakeTime
              (parseInt form.quality) (trim form.notes) existing.createdAt),
            Notification.mk "Sleep entry updated!" "success")
        | none => (sleepEntries, Notification.mk "Sleep entry updated!" "success")
      | none =>
        (sleepEntries ++
          [SleepEntry.mk now form.date form.hours form.bedtime form.wakeTime
            (parseInt form.quality) (trim form.notes) nowIso],
          Notification.mk "Sleep logged successfully!" "success") := by
  have ht : form.hours.truthy = true := by
    rw [hq]
    simpa [JsNumber.truthy] using (ne_of_gt h0)
  have hm : ¬ (form.date = "" ∨ form.hours.truthy = false ∨ form.quality = "") := by
    rw [ht]
    simp [hd, hqual]
  have hr : (form.hours.lt (.num 0) || (JsNumber.num 24).lt form.hours) = false := by
    rw [hq]
    simp only [JsNumber.lt, Bool.or_eq_false_iff, decide_eq_false_iff_not, not_lt]
    exact ⟨le_of_lt h0, h24⟩
  unfold logSleep
  simp only [if_neg hm, hr]
  rfl

/-- The lookup `findIndex` of a date that occurs in the list lands on an
entry of that date, and writing an entry of the same date there keeps the
list of dates. -/
theorem findIdx_date (l : List SleepEntry) (date : String) (h : ∃ e ∈ l, e.date = date) :
    ∃ (i : Nat) (old : SleepEntry),
      l.findIdx? (fun e => e.date == date) = some i ∧ l[i]? = some old ∧ old.date = date ∧
      ∀ entry : SleepEntry, entry.date = date →
        (l.set i entry).map (fun e => e.date) = l.map (fun e => e.date) := by
  induction l with
  | nil => simp at h
  | cons x xs ih =>
    by_cases hx : x.date = date
    · refine ⟨0, x, ?_, by simp, hx, ?_⟩
      · simp [List.findIdx?_cons, hx]
      · intro entry hid
        simp [hid, hx]
    · have h2 : ∃ e ∈ xs, e.date = date := by
        obtain ⟨e, he, hei⟩ := h
        rcases List.mem_cons.mp he with rfl | he
        · exact absurd hei hx
        · exact ⟨e, he, hei⟩
      obtain ⟨i, old, h3, h4, h5, h6⟩ := ih h2
      refine ⟨i + 1, old, ?_, ?_, h5, ?_⟩
      · simp [List.findIdx?_cons, List.findIdx?_succ, hx, h3]
      · simpa using h4
      · intro entry hid
        simp [h6 entry hid]

theorem findIdx_date_none (l : List SleepEntry) (date : String)
    (h : ∀ e ∈ l, e.date ≠ date) : l.findIdx? (fun e => e.date == date) = none := by
  induction l with
  | nil => rfl
  | cons x xs ih =>
    have hx : x.date ≠ date := h x (List.mem_cons_self x xs)
    have := ih (fun e he => h e (List.mem_cons_of_mem x he))
    simp [List.findIdx?_cons, List.findIdx?_succ, hx, this]

/-- Every logSleep keeps the dates of the entries pairwise distinct. -/
theorem logSleep_nodup (sleepEntries : List SleepEntry) (form : SleepForm) (now : Int)
    (nowIso : String) (hn : (sleepEntries.map (fun e => e.date)).Nodup) :
    ((logSleep sleepEntries form now nowIso).1.map (fun e => e.date)).Nodup := by
  unfold logSleep
  simp only
  split_ifs with h1 h2
  · exact hn
  · exact hn
  · by_cases hex : ∃ e ∈ sleepEntries, e.date = form.date
    · obtain ⟨i, old, h3, h4, _, h6⟩ := findIdx_date sleepEntries form.date hex
      simp only [h3, h4]
      rw [h6 _ rfl]
      exact hn
    · have hall : ∀ e ∈ sleepEntries, e.date ≠ form.date :=
        fun e he hd => hex ⟨e, he, hd⟩
      simp only [findIdx_date_none sleepEntries form.date hall]
      rw [List.map_append, List.nodup_append]
      refine ⟨hn, List.nodup_singleton _, ?_⟩
      intro x hx hx2
      simp only [List.map_cons, List.map_nil, List.mem_singleton] at hx2
      rw [List.mem_map] at hx
      obtain ⟨e, he, hei⟩ := hx
      exact hall e he (hei.trans hx2)

theorem deleteEntry_nodup (sleepEntries : List SleepEntry) (id : Int) (confirmed : Bool)
    (hn : (sleepEntries.map (fun e => e.date)).Nodup) :
    ((deleteEntry sleepEntries id confirmed).1.map (fun e => e.date)).Nodup := by
  unfold deleteEntry
  cases confirmed
  · exact hn
  · simp only [if_true]
    exact (List.filter_sublist _).map _ |>.nodup hn

/-- A confirmed deleteEvent of an id that no event has returns the state as
it was, with the notification of a deletion. -/
theorem deleteEvent_absent (s : ScheduleState) (eventId : Int)
    (h : ∀ e ∈ s.events, e.id ≠ eventId) :
    deleteEvent s eventId true = (s, some (Notification.mk "Event deleted" "info")) := by
  have hf : s.events.filter (fun e => e.id != eventId) = s.events := by
    rw [List.filter_eq_self]
    intro a ha
    simpa using h a ha
  unfold deleteEvent
  simp only [if_true, hf]

/-! ## The claims about deleteEvent, the sleep log, the goals and the modal -/

/-- C21, as the code has it: for every event collection and every id that no
event of the collection has, a confirmed deleteEvent leaves the state as it
was and shows the notification "Event deleted" of type info, the same as
after a removal; NotFound is not reported. -/
theorem deleteEvent_absent_reports_deleted (s : ScheduleState) (eventId : Int)
    (h : ∀ e ∈ s.events, e.id ≠ eventId) :
    deleteEvent s eventId true = (s, some (Notification.mk "Event deleted" "info")) ∧
    deleteEvent s eventId false = (s, none) :=
  ⟨deleteEvent_absent s eventId h, rfl⟩

/-- C21 on the collection of events 1 and 2 and the absent id 3. -/
theorem deleteEvent_absent_reports_deleted_witness :
    (∀ e ∈ sampleEvents, e.id ≠ 3) ∧
    deleteEvent (ScheduleState.mk sampleEvents none) 3 true =
      (ScheduleState.mk sampleEvents none, some (Notification.mk "Event deleted" "info")) ∧
    deleteEvent (ScheduleState.mk sampleEvents none) 3 false =
      (ScheduleState.mk sampleEvents none, none) :=
  ⟨by decide,
    deleteEvent_absent_reports_deleted (ScheduleState.mk sampleEvents none) 3 (by decide)⟩

/-- C21 as stated fails: no event of the collection has the id 3, and the
confirmed deleteEvent of 3 reports "Event deleted" with the type info, which
is what it reports for the present id 1 as well. -/
theorem deleteEvent_absent_not_notFound :
    (∀ e ∈ sampleEvents, e.id ≠ 3) ∧
    (deleteEvent (ScheduleState.mk sampleEvents none) 3 true).2 =
      some (Notification.mk "Event deleted" "info") ∧
    (deleteEvent (ScheduleState.mk sampleEvents none) 1 true).2 =
      some (Notification.mk "Event deleted" "info") := by
  decide

/-- C22: for every sleep-entry collection and every form input whose hours
value is below 0 or above 24, logSleep returns the collection as it was and
shows a notification of type error: the range message, or the
required-fields message when the date or the quality is empty. -/
theorem logSleep_rejects_out_of_range (sleepEntries : List SleepEntry) (form : SleepForm)
    (now : Int) (nowIso : String) (q : ℚ) (hq : form.hours = .num q) (h : q < 0 ∨ 24 < q) :
    (logSleep sleepEntries form now nowIso).1 = sleepEntries ∧
    (logSleep sleepEntries form now nowIso).2.type = "error" ∧
    (form.date ≠ "" → form.quality ≠ "" →
      (logSleep sleepEntries form now nowIso).2.message =
        "Sleep hours must be between 0 and 24") := by
  have hor := logSleep_out_of_range sleepEntries form now nowIso q hq h
  refine ⟨?_, ?_, ?_⟩
  · rcases hor with h1 | h1 <;> rw [h1]
  · rcases hor with h1 | h1 <;> rw [h1]
  · intro hd hqual
    have ht : form.hours.truthy = true := by
      rw [hq]
      have : q ≠ 0 := by
        rcases h with h | h
        · exact ne_of_lt h
        · exact ne_of_gt (lt_trans (by norm_num) h)
      simpa [JsNumber.truthy] using this
    have hm : ¬ (form.date = "" ∨ form.hours.truthy = false ∨ form.quality = "") := by
      rw [ht]
      simp [hd, hqual]
    have hr : (form.hours.lt (.num 0) || (JsNumber.num 24).lt form.hours) = true := by
      rw [hq]
      simpa [JsNumber.lt] using h
    unfold logSleep
    simp only [if_neg hm, hr, if_true]

/-- C22 at 25 hours for a new date. -/
theorem logSleep_rejects_out_of_range_witness :
    (logSleep sampleSleepEntries (sampleSleepForm "2024-01-03" (.num 25)) 1700000000000
      "2023-11-14T22:13:20.000Z").1 = sampleSleepEntries ∧
    (logSleep sampleSleepEntries (sampleSleepForm "2024-01-03" (.num 25)) 1700000000000
      "2023-11-14T22:13:20.000Z").2.type = "error" ∧
    ((sampleSleepForm "2024-01-03" (.num 25)).date ≠ "" →
      (sampleSleepForm "2024-01-03" (.num 25)).quality ≠ "" →
      (logSleep sampleSleepEntries (sampleSleepForm "2024-01-03" (.num 25)) 1700000000000
        "2023-11-14T22:13:20.000Z").2.message = "Sleep hours must be between 0 and 24") :=
  logSleep_rejects_out_of_range sampleSleepEntries (sampleSleepForm "2024-01-03" (.num 25))
    1700000000000 "2023-11-14T22:13:20.000Z" 25 rfl (Or.inr (by norm_num))

/-- C23 at an empty and at a non-numeric field: `parseInt` gives `NaN`, both
comparisons with the bounds are false, and saveDailyGoal stores `NaN` as the
daily goal with the success notification; updateGoal does the same with the
`NaN` that `parseFloat` gives. Apart from `NaN` the goals only change to
numbers within the bounds. -/
theorem goal_setters_store_nan :
    saveDailyGoal (.num 2000) "" =
      (.nan, Notification.mk "Daily goal updated to NaN kcal" "success") ∧
    saveDailyGoal (.num 2000) "abc" =
      (.nan, Notification.mk "Daily goal updated to NaN kcal" "success") ∧
    (∀ numberText : JsNumber → String,
      updateGoal numberText (.num 8) .nan =
        (.nan, Notification.mk ("Sleep goal updated to " ++ numberText .nan ++ " hours!")
          "success")) ∧
    (∀ (dailyGoal : JsNumber) (field : String),
      (saveDailyGoal dailyGoal field).1 = dailyGoal ∨
      (saveDailyGoal dailyGoal field).1 = .nan ∨
      ∃ n : Int, 1000 ≤ n ∧ n ≤ 5000 ∧ (saveDailyGoal dailyGoal field).1 = .num (n : ℚ)) ∧
    (∀ (numberText : JsNumber → String) (sleepGoal newGoal : JsNumber),
      (updateGoal numberText sleepGoal newGoal).1 = sleepGoal ∨
      (updateGoal numberText sleepGoal newGoal).1 = .nan ∨
      ∃ q : ℚ, 4 ≤ q ∧ q ≤ 12 ∧ (updateGoal numberText sleepGoal newGoal).1 = .num q) :=
  ⟨rfl, rfl, fun _ => rfl, saveDailyGoal_result, updateGoal_result⟩

/-- C27 at a sequence of calls from the initial state: two events are saved
at the clock values 1000 and 2000, the first is opened by editEvent and then
removed by a confirmed deleteEvent. In the state reached `editingEventId` is
1000 and no event has that id, and the next saveEvent raises the TypeError of
reading `createdAt` of `undefined`. -/
theorem editingEventId_dangles_after_delete :
    runActions (ScheduleState.mk [] none)
        [Action.saveEvent sampleForm 1000 "1970-01-01T00:00:01.000Z",
          Action.saveEvent sampleForm 2000 "1970-01-01T00:00:02.000Z",
          Action.editEvent 1000, Action.deleteEvent 1000] =
      ScheduleState.mk
        [Event.mk 2000 "Dentist" "2024-03-05" "09:30" "" "health" "high"
          "1970-01-01T00:00:02.000Z"]
        (some 1000) ∧
    (∀ e ∈ [Event.mk 2000 "Dentist" "2024-03-05" "09:30" "" "health" "high"
        "1970-01-01T00:00:02.000Z"], e.id ≠ 1000) ∧
    saveEvent
        (ScheduleState.mk
          [Event.mk 2000 "Dentist" "2024-03-05" "09:30" "" "health" "high"
            "1970-01-01T00:00:02.000Z"]
          (some 1000))
        sampleForm 3000 "1970-01-01T00:00:03.000Z" =
      .error .typeError :=
  ⟨by decide, by decide, rfl⟩

/-- C29 at an hours value of 0 with date and quality given: `!hours` is true
for 0, so logSleep shows the required-fields error and stores nothing; the
values just above 0 and 24 itself are accepted. -/
theorem logSleep_rejects_zero_hours :
    logSleep sampleSleepEntries (sampleSleepForm "2024-01-03" (.num 0)) 1700000000000
        "2023-11-14T22:13:20.000Z" =
      (sampleSleepEntries, Notification.mk "Please fill in all required fields" "error") ∧
    (logSleep sampleSleepEntries (sampleSleepForm "2024-01-03" (.num 24)) 1700000000000
        "2023-11-14T22:13:20.000Z").2 =
      Notification.mk "Sleep logged successfully!" "success" ∧
    (logSleep sampleSleepEntries (sampleSleepForm "2024-01-03" (.num 0.5)) 1700000000000
        "2023-11-14T22:13:20.000Z").2 =
      Notification.mk "Sleep logged successfully!" "success" := by
  refine ⟨?_, ?_, ?_⟩
  · exact logSleep_missing _ _ _ _ (Or.inr (Or.inl (by simp [sampleSleepForm, JsNumber.truthy])))
  · rw [logSleep_accepted sampleSleepEntries _ _ _ 24 rfl (by norm_num) (by norm_num)
      (by decide) (by decide)]
    rfl
  · rw [logSleep_accepted sampleSleepEntries _ _ _ 0.5 rfl (by norm_num) (by norm_num)
      (by decide) (by decide)]
    rfl

/-- C28: the dates of the sleep entries stay pairwise distinct under every
logSleep and every deleteEntry; an accepted logSleep for a date that has an
entry writes, at the position of that entry, an entry with the old id and
createdAt and the values of the form, so the length is kept; and an accepted
logSleep for a date without an entry appends one entry, with the clock value
as id. A form is accepted when the date and the quality are not empty and
the hours value is above 0 and at most 24. -/
theorem sleepEntries_one_per_date :
    (∀ (sleepEntries : List SleepEntry) (form : SleepForm) (now : Int) (nowIso : String),
      (sleepEntries.map (fun e => e.date)).Nodup →
      ((logSleep sleepEntries form now nowIso).1.map (fun e => e.date)).Nodup) ∧
    (∀ (sleepEntries : List SleepEntry) (id : Int) (confirmed : Bool),
      (sleepEntries.map (fun e => e.date)).Nodup →
      ((deleteEntry sleepEntries id confirmed).1.map (fun e => e.date)).Nodup) ∧
    (∀ (sleepEntries : List SleepEntry) (form : SleepForm) (now : Int) (nowIso : String)
        (q : ℚ),
      form.hours = .num q → 0 < q → q ≤ 24 → form.date ≠ "" → form.quality ≠ "" →
      (∃ e ∈ sleepEntries, e.date = form.date) →
      ∃ (i : Nat) (old : SleepEntry),
        sleepEntries[i]? = some old ∧ old.date = form.date ∧
        (logSleep sleepEntries form now nowIso).1 =
          sleepEntries.set i
            (SleepEntry.mk old.id form.date form.hours form.bedtime form.wakeTime
              (parseInt form.quality) (trim form.notes) old.createdAt) ∧
        (logSleep sleepEntries form now nowIso).1.length = sleepEntries.length ∧
        (logSleep sleepEntries form now nowIso).2 =
          Notification.mk "Sleep entry updated!" "success") ∧
    (∀ (sleepEntries : List SleepEntry) (form : SleepForm) (now : Int) (nowIso : String)
        (q : ℚ),
      form.hours = .num q → 0 < q → q ≤ 24 → form.date ≠ "" → form.quality ≠ "" →
      (∀ e ∈ sleepEntries, e.date ≠ form.date) →
      logSleep sleepEntries form now nowIso =
        (sleepEntries ++
          [SleepEntry.mk now form.date form.hours form.bedtime form.wakeTime
            (parseInt form.quality) (trim form.notes) nowIso],
          Notification.mk "Sleep logged successfully!" "success")) := by
  refine ⟨logSleep_nodup, deleteEntry_nodup, ?_, ?_⟩
  · intro sleepEntries form now nowIso q hq h0 h24 hd hqual hex
    obtain ⟨i, old, h3, h4, h5, _⟩ := findIdx_date sleepEntries form.date hex
    have hl := logSleep_accepted sleepEntries form now nowIso q hq h0 h24 hd hqual
    simp only [h3, h4] at hl
    refine ⟨i, old, h4, h5, ?_, ?_, ?_⟩
    · rw [hl]
    · rw [hl]
      simp
    · rw [hl]
  · intro sleepEntries form now nowIso q hq h0 h24 hd hqual hall
    have hl := logSleep_accepted sleepEntries form now nowIso q hq h0 h24 hd hqual
    simp only [findIdx_date_none sleepEntries form.date hall] at hl
    exact hl

/-- C28 on the entries of 1 and 2 January: sleep logged again for 2 January
and sleep logged for 3 January. -/
theorem sleepEntries_one_per_date_witness :
    (∃ (i : Nat) (old : SleepEntry),
      sampleSleepEntries[i]? = some old ∧
      old.date = (sampleSleepForm "2024-01-02" (.num 6)).date ∧
      (logSleep sampleSleepEntries (sampleSleepForm "2024-01-02" (.num 6)) 1700000000000
          "2023-11-14T22:13:20.000Z").1 =
        sampleSleepEntries.set i
          (SleepEntry.mk old.id (sampleSleepForm "2024-01-02" (.num 6)).date
            (sampleSleepForm "2024-01-02" (.num 6)).hours
            (sampleSleepForm "2024-01-02" (.num 6)).bedtime
            (sampleSleepForm "2024-01-02" (.num 6)).wakeTime
            (parseInt (sampleSleepForm "2024-01-02" (.num 6)).quality)
            (trim (sampleSleepForm "2024-01-02" (.num 6)).notes) old.createdAt) ∧
      (logSleep sampleSleepEntries (sampleSleepForm "2024-01-02" (.num 6)) 1700000000000
          "2023-11-14T22:13:20.000Z").1.length = sampleSleepEntries.length ∧
      (logSleep sampleSleepEntries (sampleSleepForm "2024-01-02" (.num 6)) 1700000000000
          "2023-11-14T22:13:20.000Z").2 =
        Notification.mk "Sleep entry updated!" "success") ∧
    logSleep sampleSleepEntries (sampleSleepForm "2024-01-03" (.num 6)) 1700000000000
        "2023-11-14T22:13:20.000Z" =
      (sampleSleepEntries ++
        [SleepEntry.mk 1700000000000 (sampleSleepForm "2024-01-03" (.num 6)).date
          (sampleSleepForm "2024-01-03" (.num 6)).hours
          (sampleSleepForm "2024-01-03" (.num 6)).bedtime
          (sampleSleepForm "2024-01-03" (.num 6)).wakeTime
          (parseInt (sampleSleepForm "2024-01-03" (.num 6)).quality)
          (trim (sampleSleepForm "2024-01-03" (.num 6)).notes) "2023-11-14T22:13:20.000Z"],
        Notification.mk "Sleep logged successfully!" "success") ∧
    ((logSleep sampleSleepEntries (sampleSleepForm "2024-01-02" (.num 6)) 1700000000000
        "2023-11-14T22:13:20.000Z").1.map (fun e => e.date)).Nodup :=
  ⟨sleepEntries_one_per_date.2.2.1 sampleSleepEntries (sampleSleepForm "2024-01-02" (.num 6))
      1700000000000 "2023-11-14T22:13:20.000Z" 6 rfl (by norm_num) (by norm_num) (by decide)
      (by decide) ⟨sampleSleepEntry 2 "2024-01-02", by simp [sampleSleepEntries], rfl⟩,
    sleepEntries_one_per_date.2.2.2 sampleSleepEntries (sampleSleepForm "2024-01-03" (.num 6))
      1700000000000 "2023-11-14T22:13:20.000Z" 6 rfl (by norm_num) (by norm_num) (by decide)
      (by decide) (by simp [sampleSleepEntries, sampleSleepEntry, sampleSleepForm]),
    sleepEntries_one_per_date.1 sampleSleepEntries (sampleSleepForm "2024-01-02" (.num 6))
      1700000000000 "2023-11-14T22:13:20.000Z" (by decide)⟩

/-! ## formatTime -/

theorem splitOn_time (a b m1 m2 : Char) (ha : a ≠ ':') (hb : b ≠ ':') (h1 : m1 ≠ ':')
    (h2 : m2 ≠ ':') : splitOn ':' [a, b, ':', m1, m2] = [[a, b], [m1, m2]] := by
  simp [splitOn, ha, hb, h1, h2]

theorem ne_colon_of_isDigit {c : Char} (h : c.isDigit = true) : c ≠ ':' := by
  intro hc
  rw [hc] at h
  exact absurd h (by decide)

/-- The value of formatTime on a time of two hour characters and two minute
characters, in terms of `parseInt` of the hour. -/
theorem formatTime_parts (a b m1 m2 : Char) (ha : a ≠ ':') (hb : b ≠ ':') (h1 : m1 ≠ ':')
    (h2 : m2 ≠ ':') (h : Int) (hp : parseInt (String.mk [a, b]) = some h) :
    Nutrition.formatTime (String.mk [a, b, ':', m1, m2]) =
      intText (some (if h.tmod 12 ≠ 0 then h.tmod 12 else 12)) ++ ":" ++ String.mk [m1, m2] ++
        " " ++ (if h ≥ 12 then "PM" else "AM") := by
  unfold Nutrition.formatTime
  simp only [splitOn_time a b m1 m2 ha hb h1 h2, List.headD_cons, List.tail_cons,
    List.head?_cons, hp]
  split_ifs <;> rfl

theorem formatTime_same (time : String) :
    Exercise.formatTime time = Nutrition.formatTime time := rfl

theorem hour_chars (h : Nat) (hh : h < 24) :
    ∃ a b : Char, padStart2 (toString h) = String.mk [a, b] ∧ a ≠ ':' ∧ b ≠ ':' ∧
      parseInt (String.mk [a, b]) = some (h : Int) := by
  interval_cases h <;> exact ⟨_, _, rfl, by decide, by decide, by decide⟩

/-- C24: for every hour h in 0..23 written with two digits and every minute
string of two digits, formatTime("hh:mm") is "d:mm AM" when h < 12 and
"d:mm PM" otherwise, where d is 12 when h mod 12 is 0 (h is 0 or 12) and
h mod 12 otherwise, so d lies in 1..12 and the minutes are kept; and the
copies of exercise.js and nutrition.js agree on every input. -/
theorem formatTime_twelve_hour (h : Nat) (m1 m2 : Char) (hh : h < 24)
    (hm1 : m1.isDigit = true) (hm2 : m2.isDigit = true) :
    Nutrition.formatTime (padStart2 (toString h) ++ ":" ++ String.mk [m1, m2]) =
      toString (if h % 12 = 0 then 12 else h % 12) ++ ":" ++ String.mk [m1, m2] ++
        (if h < 12 then " AM" else " PM") ∧
    (1 ≤ (if h % 12 = 0 then 12 else h % 12) ∧ (if h % 12 = 0 then 12 else h % 12) ≤ 12) ∧
    ((h = 0 ∨ h = 12) ↔ h % 12 = 0) ∧
    ∀ time : String, Exercise.formatTime time = Nutrition.formatTime time := by
  refine ⟨?_, ?_, ?_, formatTime_same⟩
  · obtain ⟨a, b, hab, ha, hb, hp⟩ := hour_chars h hh
    have hs : padStart2 (toString h) ++ ":" ++ String.mk [m1, m2] =
        String.mk [a, b, ':', m1, m2] := by
      rw [hab]
      rfl
    rw [hs, formatTime_parts a b m1 m2 ha hb (ne_colon_of_isDigit hm1)
      (ne_colon_of_isDigit hm2) h hp]
    clear hs hp hab
    interval_cases h <;> rfl
  · split_ifs <;> omega
  · omega

/-- C24 at 13:45 and at 00:05. -/
theorem formatTime_twelve_hour_witness :
    Nutrition.formatTime "13:45" = "1:45 PM" ∧ Nutrition.formatTime "00:05" = "12:05 AM" :=
  ⟨(formatTime_twelve_hour 13 '4' '5' (by decide) (by decide) (by decide)).1,
    (formatTime_twelve_hour 0 '0' '5' (by decide) (by decide) (by decide)).1⟩

/-! ## The language of the email pattern -/

theorem notSpaceAt_matches (x : List CharClass) :
    x ∈ notSpaceAt.matches' ↔ ∃ c, (c = CharClass.dot ∨ c = CharClass.other) ∧ x = [c] := by
  unfold notSpaceAt
  rw [RegularExpression.matches'_add, RegularExpression.matches'_char,
    RegularExpression.matches'_char, Language.mem_add]
  constructor
  · rintro (h | h)
    · exact ⟨CharClass.dot, Or.inl rfl, h⟩
    · exact ⟨CharClass.other, Or.inr rfl, h⟩
  · rintro ⟨c, hc | hc, rfl⟩
    · left; rw [hc]; rfl
    · right; rw [hc]; rfl

theorem notSpaceAt_star_matches (x : List CharClass) :
    x ∈ (RegularExpression.star notSpaceAt).matches' ↔
      ∀ c ∈ x, c = CharClass.dot ∨ c = CharClass.other := by
  rw [RegularExpression.matches'_star, Language.mem_kstar]
  constructor
  · rintro ⟨L, rfl, hL⟩ c hc
    rw [List.mem_flatten] at hc
    obtain ⟨y, hy, hcy⟩ := hc
    obtain ⟨d, hd, rfl⟩ := (notSpaceAt_matches y).mp (hL y hy)
    rw [List.mem_singleton] at hcy
    rw [hcy]
    exact hd
  · intro h
    refine ⟨x.map (fun c => [c]), ?_, ?_⟩
    · induction x with
      | nil => rfl
      | cons a xs ih =>
        simp only [List.map_cons, List.flatten_cons, List.singleton_append]
        rw [← ih (fun c hc => h c (List.mem_cons_of_mem a hc))]
    · intro y hy
      rw [List.mem_map] at hy
      obtain ⟨c, hc, rfl⟩ := hy
      exact (notSpaceAt_matches [c]).mpr ⟨c, h c hc, rfl⟩

theorem notSpaceAt_plus_matches (x : List CharClass) :
    x ∈ (notSpaceAt * RegularExpression.star notSpaceAt).matches' ↔
      x ≠ [] ∧ ∀ c ∈ x, c = CharClass.dot ∨ c = CharClass.other := by
  rw [RegularExpression.matches'_mul, Language.mem_mul]
  constructor
  · rintro ⟨a, ha, b, hb, rfl⟩
    obtain ⟨c, hc, rfl⟩ := (notSpaceAt_matches a).mp ha
    refine ⟨by simp, ?_⟩
    intro d hd
    rcases List.mem_append.mp hd with h | h
    · rw [List.mem_singleton] at h
      rw [h]
      exact hc
    · exact (notSpaceAt_star_matches b).mp hb d h
  · rintro ⟨hne, h⟩
    cases x with
    | nil => exact absurd rfl hne
    | cons a xs =>
      refine ⟨[a], (notSpaceAt_matches [a]).mpr ⟨a, h a (List.mem_cons_self a xs), rfl⟩, xs,
        (notSpaceAt_star_matches xs).mpr (fun c hc => h c (List.mem_cons_of_mem a hc)), rfl⟩

theorem notSpaceAt_plus_split (x : List CharClass) :
    (∃ a ∈ notSpaceAt.matches', ∃ b ∈ (RegularExpression.star notSpaceAt).matches',
        a ++ b = x) ↔
      x ≠ [] ∧ ∀ c ∈ x, c = CharClass.dot ∨ c = CharClass.other := by
  rw [← notSpaceAt_plus_matches, RegularExpression.matches'_mul, Language.mem_mul]

/-- The words of the pattern: a non-empty run, the class of `@`, a non-empty
run, the class of the dot, a non-empty run; the runs hold dots and other
characters only. -/
theorem emailRegex_matches (x : List CharClass) :
    x ∈ emailRegex.matches' ↔
      ∃ l u v : List CharClass,
        x = l ++ CharClass.at :: (u ++ CharClass.dot :: v) ∧
        (l ≠ [] ∧ ∀ c ∈ l, c = CharClass.dot ∨ c = CharClass.other) ∧
        (u ≠ [] ∧ ∀ c ∈ u, c = CharClass.dot ∨ c = CharClass.other) ∧
        (v ≠ [] ∧ ∀ c ∈ v, c = CharClass.dot ∨ c = CharClass.other) := by
  unfold emailRegex
  simp only [RegularExpression.matches'_mul, Language.mem_mul, RegularExpression.matches'_char,
    notSpaceAt_plus_split]
  constructor
  · rintro ⟨a4, ⟨a3, ⟨a2, ⟨a1, h1, b1, hb1, rfl⟩, b2, h2, rfl⟩, b3, hb3, rfl⟩, b4, h4, rfl⟩
    have e1 : b1 = [CharClass.at] := hb1
    have e3 : b3 = [CharClass.dot] := hb3
    refine ⟨a1, b2, b4, ?_, h1, h2, h4⟩
    rw [e1, e3]
    simp
  · rintro ⟨l, u, v, rfl, hl, hu, hv⟩
    exact ⟨l ++ [CharClass.at] ++ u ++ [CharClass.dot],
      ⟨l ++ [CharClass.at] ++ u, ⟨l ++ [CharClass.at], ⟨l, hl, [CharClass.at], rfl, rfl⟩,
        u, hu, rfl⟩, [CharClass.dot], rfl, rfl⟩, v, hv, by simp⟩

theorem charClass_at (c : Char) : charClass c = CharClass.at ↔ c = '@' := by
  unfold charClass
  constructor
  · intro h
    split_ifs at h with h1 h2 h3
    exact h2
  · rintro rfl
    rfl

theorem charClass_dot (c : Char) : charClass c = CharClass.dot ↔ c = '.' := by
  unfold charClass
  constructor
  · intro h
    split_ifs at h with h1 h2 h3
    exact h3
  · rintro rfl
    rfl

theorem charClass_run (c : Char) :
    (charClass c = CharClass.dot ∨ charClass c = CharClass.other) ↔
      isWhiteSpace c = false ∧ c ≠ '@' := by
  unfold charClass
  constructor
  · intro h
    split_ifs at h with h1 h2 h3
    · rcases h with h | h <;> cases h
    · rcases h with h | h <;> cases h
    · exact ⟨by simpa using h1, h2⟩
    · exact ⟨by simpa using h1, h2⟩
  · rintro ⟨h1, h2⟩
    rw [h1]
    simp only [Bool.false_eq_true, if_false, if_neg h2]
    split_ifs
    · exact Or.inl rfl
    · exact Or.inr rfl

theorem run_of_classes (l : List Char)
    (h : ∀ c ∈ l.map charClass, c = CharClass.dot ∨ c = CharClass.other) :
    ∀ c ∈ l, isWhiteSpace c = false ∧ c ≠ '@' := by
  intro c hc
  exact (charClass_run c).mp (h (charClass c) (List.mem_map_of_mem _ hc))

theorem classes_of_run (l : List Char) (h : ∀ c ∈ l, isWhiteSpace c = false ∧ c ≠ '@') :
    ∀ c ∈ l.map charClass, c = CharClass.dot ∨ c = CharClass.other := by
  intro c hc
  rw [List.mem_map] at hc
  obtain ⟨a, ha, rfl⟩ := hc
  exact (charClass_run a).mpr (h a ha)

/-- The strings that isValidEmail accepts. -/
theorem isValidEmail_iff (email : String) :
    isValidEmail email = true ↔
      email.data.count '@' = 1 ∧ (∀ c ∈ email.data, isWhiteSpace c = false) ∧
      ∃ l d : List Char, email.data = l ++ '@' :: d ∧ l ≠ [] ∧
        ∃ u v : List Char, d = u ++ '.' :: v ∧ u ≠ [] ∧ v ≠ [] := by
  unfold isValidEmail
  rw [RegularExpression.rmatch_iff_matches', emailRegex_matches]
  constructor
  · rintro ⟨l, u, v, hx, ⟨hl0, hl⟩, ⟨hu0, hu⟩, ⟨hv0, hv⟩⟩
    obtain ⟨L, R, hdata, hL, hR⟩ := List.map_eq_append_iff.mp hx
    obtain ⟨a, D, rfl, ha, hD⟩ := List.map_eq_cons_iff.mp hR
    obtain ⟨U, R2, rfl, hU, hR2⟩ := List.map_eq_append_iff.mp hD
    obtain ⟨b, V, rfl, hb, hV⟩ := List.map_eq_cons_iff.mp hR2
    rw [charClass_at] at ha
    rw [charClass_dot] at hb
    subst ha hb hL hU hV
    have rL := run_of_classes L hl
    have rU := run_of_classes U hu
    have rV := run_of_classes V hv
    have cL : L.count '@' = 0 := List.count_eq_zero.mpr (fun h => (rL _ h).2 rfl)
    have cU : U.count '@' = 0 := List.count_eq_zero.mpr (fun h => (rU _ h).2 rfl)
    have cV : V.count '@' = 0 := List.count_eq_zero.mpr (fun h => (rV _ h).2 rfl)
    refine ⟨?_, ?_, L, U ++ '.' :: V, hdata, ?_, U, V, rfl, ?_, ?_⟩
    · rw [hdata]
      simp [List.count_append, List.count_cons, cL, cU, cV]
    · intro c hc
      rw [hdata] at hc
      simp only [List.mem_append, List.mem_cons] at hc
      rcases hc with h | rfl | h | rfl | h
      · exact (rL c h).1
      · decide
      · exact (rU c h).1
      · decide
      · exact (rV c h).1
    · intro h
      exact hl0 (by rw [h]; rfl)
    · intro h
      exact hu0 (by rw [h]; rfl)
    · intro h
      exact hv0 (by rw [h]; rfl)
  · rintro ⟨hcount, hws, L, D, hdata, hL0, U, V, rfl, hU0, hV0⟩
    rw [hdata] at hcount hws
    have hc2 : L.count '@' = 0 ∧ U.count '@' = 0 ∧ V.count '@' = 0 := by
      simp [List.count_append, List.count_cons] at hcount
      omega
    have rL : ∀ c ∈ L, isWhiteSpace c = false ∧ c ≠ '@' := fun c hc =>
      ⟨hws c (by simp [hc]), fun h => List.count_eq_zero.mp hc2.1 (h ▸ hc)⟩
    have rU : ∀ c ∈ U, isWhiteSpace c = false ∧ c ≠ '@' := fun c hc =>
      ⟨hws c (by simp [hc]), fun h => List.count_eq_zero.mp hc2.2.1 (h ▸ hc)⟩
    have rV : ∀ c ∈ V, isWhiteSpace c = false ∧ c ≠ '@' := fun c hc =>
      ⟨hws c (by simp [hc]), fun h => List.count_eq_zero.mp hc2.2.2 (h ▸ hc)⟩
    refine ⟨L.map charClass, U.map charClass, V.map charClass, ?_,
      ⟨by simpa using hL0, classes_of_run L rL⟩, ⟨by simpa using hU0, classes_of_run U rU⟩,
      ⟨by simpa using hV0, classes_of_run V rV⟩⟩
    rw [hdata]
    simp only [List.map_append, List.map_cons]
    rfl

/-- C30: a string is accepted by isValidEmail exactly when it contains one
'@' and no white space, has a non-empty part before the '@', and has after
the '@' a '.' that is neither the first character after the '@' nor the
last character of the string. -/
theorem isValidEmail_shape (email : String) :
    isValidEmail email = true ↔
      email.data.count '@' = 1 ∧ (∀ c ∈ email.data, isWhiteSpace c = false) ∧
      ∃ l d : List Char, email.data = l ++ '@' :: d ∧ l ≠ [] ∧
        ∃ u v : List Char, d = u ++ '.' :: v ∧ u ≠ [] ∧ v ≠ [] :=
  isValidEmail_iff email

/-- C30 at "user@example.com". -/
theorem isValidEmail_shape_witness : isValidEmail "user@example.com" = true :=
  (isValidEmail_shape "user@example.com").mpr
    ⟨by decide, by decide, "user".data, "example.com".data, rfl, by decide,
      "example".data, "com".data, rfl, by decide, by decide⟩

/-! ## The estimate across portion sizes -/

theorem table_monotone : ∀ entry ∈ calorieDatabase,
    tableValue entry.2 .small ≤ tableValue entry.2 .medium ∧
    tableValue entry.2 .medium ≤ tableValue entry.2 .large := by decide

theorem referenceBase_mono (t : String) (p q : Portion)
    (hpq : ∀ entry ∈ calorieDatabase, tableValue entry.2 p ≤ tableValue entry.2 q)
    (hmeal : tableValue ((calorieDatabase.lookup "meal").getD []) p ≤
      tableValue ((calorieDatabase.lookup "meal").getD []) q) :
    referenceBase t p ≤ referenceBase t q := by
  unfold referenceBase
  split_ifs
  · exact hmeal
  · apply List.sum_le_sum
    intro entry he
    exact hpq entry (List.mem_filter.mp he).1

theorem referenceTotal_mono (t : String) (p q : Portion)
    (h : referenceBase t p ≤ referenceBase t q) : referenceTotal t p ≤ referenceTotal t q := by
  have hb : (referenceBase t p : ℚ) ≤ (referenceBase t q : ℚ) := by exact_mod_cast h
  unfold referenceTotal
  simp only
  split_ifs <;> norm_num <;> linarith

theorem referenceEstimate_mono (t : String) (p q : Portion)
    (h : referenceBase t p ≤ referenceBase t q) :
    referenceEstimate t p ≤ referenceEstimate t q := by
  have ht := referenceTotal_mono t p q h
  unfold referenceEstimate
  rw [round_eq, round_eq]
  have hf : ⌊referenceTotal t p / 10 + 1 / 2⌋ ≤ ⌊referenceTotal t q / 10 + 1 / 2⌋ :=
    Int.floor_le_floor (by linarith)
  have hc : ((⌊referenceTotal t p / 10 + 1 / 2⌋ : ℤ) : ℚ) ≤
      ((⌊referenceTotal t q / 10 + 1 / 2⌋ : ℤ) : ℚ) := by exact_mod_cast hf
  linarith

theorem meal_monotone :
    tableValue ((calorieDatabase.lookup "meal").getD []) .small ≤
      tableValue ((calorieDatabase.lookup "meal").getD []) .medium ∧
    tableValue ((calorieDatabase.lookup "meal").getD []) .medium ≤
      tableValue ((calorieDatabase.lookup "meal").getD []) .large := by decide

/-- C25: for every food text the estimates for small, medium and large are
numbers in ascending order. -/
theorem estimateCalories_monotone_in_portion (toLowerCase : String → String)
    (foodText : String) :
    ∃ a b c : ℚ,
      estimateCalories toLowerCase foodText "small" = .ok (.num a) ∧
      estimateCalories toLowerCase foodText "medium" = .ok (.num b) ∧
      estimateCalories toLowerCase foodText "large" = .ok (.num c) ∧
      a ≤ b ∧ b ≤ c :=
  ⟨_, _, _, estimateCalories_eq toLowerCase foodText .small,
    estimateCalories_eq toLowerCase foodText .medium,
    estimateCalories_eq toLowerCase foodText .large,
    referenceEstimate_mono _ _ _
      (referenceBase_mono _ _ _ (fun e he => (table_monotone e he).1) meal_monotone.1),
    referenceEstimate_mono _ _ _
      (referenceBase_mono _ _ _ (fun e he => (table_monotone e he).2) meal_monotone.2)⟩

/-! ## Modifier words that hold a keyword -/

theorem steamed_has_tea {t : String} (h : includes t "steamed" = true) :
    includes t "tea" = true :=
  includes_trans h (by decide)

theorem foundMatches_of_tea (t : String) (p : Portion) (h : includes t "tea" = true) :
    (calorieDatabase.foldl (matchStep t p.key) (JsNumber.num 0, 0)).2 ≠ 0 := by
  rw [foldl_matchStep t p calorieDatabase table_keys 0 0]
  have hm : ("tea", [("small", 2), ("medium", 5), ("large", 8)]) ∈
      calorieDatabase.filter (fun entry => includes t entry.1) := by
    rw [List.mem_filter]
    exact ⟨by decide, h⟩
  have hl := List.length_pos_of_mem hm
  simp only
  omega

theorem steamed_vegetables_value :
    estimateCalories asciiLower "steamed vegetables" Portion.medium.key = .ok (.num 0) := by
  rw [estimate_of_flags asciiLower "steamed vegetables" .medium 5 false true false false
    (by decide) (by decide) (by decide) (by decide) (by decide)]
  norm_num [Int.floor_eq_iff]

/-- C26: every text whose lower-cased form contains "steamed" contains the
keyword "tea", so the loop counts a match and the meal fallback is not taken;
estimateCalories("steamed vegetables", "medium") is 0, from the base value 5
of "tea" times 0.9, where the fallback value 500 times 0.9 would give 450. -/
theorem steamed_matches_tea :
    (∀ (toLowerCase : String → String) (foodText : String) (p : Portion),
      includes (toLowerCase foodText) "steamed" = true →
      includes (toLowerCase foodText) "tea" = true ∧
      (calorieDatabase.foldl (matchStep (toLowerCase foodText) p.key)
        (JsNumber.num 0, 0)).2 ≠ 0) ∧
    baseCalories (asciiLower "steamed vegetables") "medium" = .ok (.num 5) ∧
    estimateCalories asciiLower "steamed vegetables" "medium" = .ok (.num 0) ∧
    ((⌊mealFallback Portion.medium * 0.9 / 10 + 1 / 2⌋ : ℤ) : ℚ) * 10 = 450 := by
  refine ⟨?_, ?_, steamed_vegetables_value, ?_⟩
  · intro toLowerCase foodText p h
    exact ⟨steamed_has_tea h, foundMatches_of_tea _ p (steamed_has_tea h)⟩
  · have h := baseCalories_eq (asciiLower "steamed vegetables") .medium
    rw [show referenceBase (asciiLower "steamed vegetables") .medium = 5 by decide] at h
    exact h
  · norm_num [mealFallback, Int.floor_eq_iff]

/-- C26 at "steamed vegetables": the lower-cased text contains "steamed",
hence "tea", and the loop counts a match. -/
theorem steamed_matches_tea_witness :
    includes (asciiLower "steamed vegetables") "tea" = true ∧
    (calorieDatabase.foldl (matchStep (asciiLower "steamed vegetables") Portion.medium.key)
      (JsNumber.num 0, 0)).2 ≠ 0 :=
  steamed_matches_tea.1 asciiLower "steamed vegetables" .medium (by decide)


end WellUP
